import Mathlib

/-!
Verification development for a Jira MCP tool server.

The development shallowly embeds the command-dispatch layer
(src/handlers, function handleCallTool), the role/member aggregation
(src/tools/listProjectMembers.ts and src/tools/checkUserIssues.ts) and
the board/sprint aggregation (function listSprints) of the repository.

Modelling conventions, used throughout:
* JavaScript string falsiness (undefined or "") is modelled by
  Option String together with jsTruthy, or by the empty string where a
  field is always a string.
* Asynchronous code is embedded in the GW monad: explicit state passing
  of an effect log (the list of upstream gateway calls made so far plus
  the console warnings emitted so far) together with Except String for
  thrown exceptions.  Promise.all over a list of requests is modelled as
  sequential resolution in registration order, which is the order the
  code builds the promise array in.
* Each axios.get is one GW.call step that records the request in the
  effect log and returns the oracle response held by a World value; the
  World is the upstream Jira service (an external collaborator).
  Request headers are constant across calls and are not part of the log.
* new Date(s).getTime() is modelled by an uninterpreted parse function
  String to Nat carried by the World (field parseTime), and the two
  locale renderings by uninterpreted String to String functions.
-/

/-- A JS string option is truthy when it is present and nonempty. -/
def jsTruthy : Option String → Bool
  | none => false
  | some s => s ≠ ""

/-- Model of the JS expression a or-else b on optional strings. -/
def jsOr (a b : Option String) : Option String :=
  if jsTruthy a then a else b

/-- Model of the JS expression o or-else d where d is a plain string. -/
def jsStrOr (o : Option String) (d : String) : String :=
  match o with
  | none => d
  | some s => if s = "" then d else s

/-- Model of JS String.prototype.toLowerCase, mapping each character. -/
def jsToLower (s : String) : String :=
  String.mk (s.data.map Char.toLower)

/-- Model of JS String.prototype.trim. -/
def jsTrim (s : String) : String :=
  String.mk (((s.data.dropWhile Char.isWhitespace).reverse.dropWhile Char.isWhitespace).reverse)

/-- Model of JS String.prototype.includes: substring containment. -/
def strContains (s pat : String) : Bool :=
  decide (pat.data <:+: s.data)

/-- Characters matched by the character class open-bracket A-Z close-bracket. -/
def isUpperAZ (c : Char) : Bool :=
  'A' ≤ c && c ≤ 'Z'

/-- Characters matched by the class of uppercase letters, digits and underscore. -/
def isKeyTailChar (c : Char) : Bool :=
  isUpperAZ c || c.isDigit || c = '_'

/-- Model of the validator regular expression for project keys:
an uppercase letter followed by one or more key tail characters. -/
def validProjectKey (s : String) : Bool :=
  match s.data with
  | [] => false
  | c :: rest => isUpperAZ c && !rest.isEmpty && rest.all isKeyTailChar

/-- Model of the regular expression matching one or more digits. -/
def allDigits (s : String) : Bool :=
  !s.data.isEmpty && s.data.all Char.isDigit

/-- Model of the case-insensitive protocol test of normalizeJiraHost. -/
def hasHttpProtocol (s : String) : Bool :=
  "http://".data.isPrefixOf (jsToLower s).data || "https://".data.isPrefixOf (jsToLower s).data

/-- src/utils/auth.ts, normalizeJiraHost: prepend https:// when no protocol is present. -/
def normalizeJiraHost (jiraHost : String) : String :=
  if hasHttpProtocol jiraHost then jiraHost else "https://" ++ jiraHost

/-- Model of JS String.prototype charAt(0).toUpperCase() + slice(1). -/
def capitalizeFirst (s : String) : String :=
  match s.data with
  | [] => ""
  | c :: rest => String.mk (c.toUpper :: rest)

/-- One item of a tool result content array. -/
structure ContentItem where
  type : String
  text : String
deriving DecidableEq

/-- The uniform result envelope every tool handler produces. -/
structure ToolResult where
  content : List ContentItem
  isError : Bool
deriving DecidableEq

/-- Convenience constructor for a single-text result envelope. -/
def mkResult (text : String) (isError : Bool) : ToolResult :=
  { content := [{ type := "text", text := text }], isError := isError }

/-- The untyped argument object passed to a tool call, restricted to the
fields the embedded tools read.  A missing JS property is none. -/
structure RawArgs where
  jiraHost : Option String
  loginName : Option String
  loginToken : Option String
  projectKey : Option String
  userName : Option String
  boardId : Option String
  state : Option String
deriving DecidableEq

/-- An argument object with every property missing. -/
def emptyArgs : RawArgs :=
  { jiraHost := none, loginName := none, loginToken := none,
    projectKey := none, userName := none, boardId := none, state := none }

/-- The process environment variables read by the server. -/
structure Env where
  jiraHost : Option String
  loginName : Option String
  loginToken : Option String

/-- A role actor from a role detail response (src/types).  An undefined
displayName is modelled by the empty string, which the code treats the
same way via JS falsiness; emailAddress keeps the Option. -/
structure RoleActor where
  displayName : String
  type : String
  emailAddress : Option String
deriving DecidableEq

/-- A role detail response body: its actors array (empty for a missing array). -/
structure ProjectRole where
  actors : List RoleActor
deriving DecidableEq

/-- A value of the role map returned by GET project role: the code keeps
only entries whose value is a string URL. -/
inductive RoleUrlVal where
  | str (s : String)
  | other
deriving DecidableEq

/-- The member record accumulated in the allMembers map. -/
structure MemberRecord where
  displayName : String
  type : String
  email : String
  roles : List String
deriving DecidableEq

/-- Fields of an issue returned by the search endpoint, restricted to
what the check-user-issues rendering reads.  The optional chain
status?.name is collapsed to one Option. -/
structure IssueFields where
  summary : Option String
  statusName : Option String
  issuetypeName : Option String
  created : String
deriving DecidableEq

/-- An issue returned by the search endpoint. -/
structure Issue where
  key : String
  fields : IssueFields
deriving DecidableEq

/-- A board object returned by the board listing endpoint. -/
structure Board where
  id : String
deriving DecidableEq

/-- An upstream sprint object.  startDate and endDate are the raw date
strings of the JSON payload. -/
structure SprintRec where
  id : String
  name : String
  state : String
  startDate : Option String
  endDate : Option String
  goal : Option String
deriving DecidableEq

/-- A sprint tagged with the id of the board it was fetched from, the
result of the spread expression adding boardId to the sprint object. -/
structure TaggedSprint where
  sprint : SprintRec
  boardId : String
deriving DecidableEq

/-- An issue of a sprint as read by the sprint detail rendering. -/
structure SprintIssue where
  key : String
  summary : String
  statusName : Option String
  issuetypeName : Option String
  assigneeDisplayName : Option String
deriving DecidableEq

/-- One upstream gateway request, identified by the request data the
handlers put in the URL and query parameters. -/
inductive UpstreamCall where
  | getProjectRoles (url : String)
  | getRoleDetail (url : String)
  | searchCall (jql : String) (maxResults : Nat) (fields : String)
  | getBoards (projectKeyOrId : Option String)
  | getBoardSprints (boardId : String) (state : Option String)
  | getSprintIssues (sprintId : String) (fields : String)
deriving DecidableEq

/-- The effect log of one dispatch: the gateway calls made so far and
the console warnings emitted so far, both in order. -/
structure EffLog where
  calls : List UpstreamCall
  warnings : List String
deriving DecidableEq

/-- The empty effect log. -/
def emptyLog : EffLog := { calls := [], warnings := [] }

/-- The effect monad of the embedding: state passing of the effect log,
with thrown JS exceptions modelled by their message string. -/
def GW (α : Type) : Type :=
  EffLog → Except String α × EffLog

/-- Return a pure value, leaving the log unchanged. -/
def GW.pure' (a : α) : GW α := fun l => (.ok a, l)

/-- Sequence two effects; a thrown exception short-circuits. -/
def GW.bind' (x : GW α) (f : α → GW β) : GW β := fun l =>
  match x l with
  | (.ok a, l') => f a l'
  | (.error e, l') => (.error e, l')

instance : Monad GW where
  pure := GW.pure'
  bind := GW.bind'

/-- Throw a JS exception carrying the given message. -/
def GW.throw (e : String) : GW α := fun l => (.error e, l)

/-- A JS try/catch block around x with handler h. -/
def GW.tryCatch (x : GW α) (h : String → GW α) : GW α := fun l =>
  match x l with
  | (.ok a, l') => (.ok a, l')
  | (.error e, l') => h e l'

/-- Lift a pure fallible computation. -/
def GW.ofExcept : Except String α → GW α
  | .ok a => GW.pure' a
  | .error e => GW.throw e

/-- One upstream gateway request: record the call, return the oracle
response (a rejected promise is a thrown exception). -/
def GW.call (c : UpstreamCall) (resp : Except String α) : GW α := fun l =>
  (resp, { l with calls := l.calls ++ [c] })

/-- A console.warn emission. -/
def GW.warn (msg : String) : GW Unit := fun l =>
  (.ok (), { l with warnings := l.warnings ++ [msg] })

/-- The upstream Jira service together with the ambient date functions,
an external collaborator given as response oracles per endpoint.  The
search oracle returns the issues array of the response body, which may
be absent; the board and sprint oracles likewise return the optional
values array. -/
structure World where
  parseTime : String → Nat
  localeDateString : String → String
  localeString : String → String
  projectRoles : String → Except String (List (String × RoleUrlVal))
  roleDetail : String → Except String ProjectRole
  search : String → Except String (Option (List Issue))
  boards : Option String → Except String (Option (List Board))
  boardSprints : String → Option String → Except String (Option (List SprintRec))
  sprintIssues : String → Except String (Option (List SprintIssue))

theorem GW.run_pure (a : α) (l : EffLog) :
    (pure a : GW α) l = (.ok a, l) := rfl

theorem GW.run_bind (x : GW α) (f : α → GW β) (l : EffLog) :
    (x >>= f) l = match x l with
      | (.ok a, l') => f a l'
      | (.error e, l') => (.error e, l') := rfl

theorem GW.run_bind_ok (x : GW α) (f : α → GW β) {l l' : EffLog} {a : α}
    (h : x l = (.ok a, l')) : (x >>= f) l = f a l' := by
  simp [GW.run_bind, h]

theorem GW.run_bind_error (x : GW α) (f : α → GW β) {l l' : EffLog} {e : String}
    (h : x l = (.error e, l')) : (x >>= f) l = (.error e, l') := by
  simp [GW.run_bind, h]

theorem GW.run_tryCatch_ok (x : GW α) (h : String → GW α) {l l' : EffLog} {a : α}
    (hx : x l = (.ok a, l')) : GW.tryCatch x h l = (.ok a, l') := by
  simp [GW.tryCatch, hx]

theorem GW.run_tryCatch_error (x : GW α) (h : String → GW α) {l l' : EffLog} {e : String}
    (hx : x l = (.error e, l')) : GW.tryCatch x h l = h e l' := by
  simp [GW.tryCatch, hx]

theorem GW.run_call (c : UpstreamCall) (resp : Except String α) (l : EffLog) :
    GW.call c resp l = (resp, { l with calls := l.calls ++ [c] }) := rfl

theorem GW.run_warn (msg : String) (l : EffLog) :
    GW.warn msg l = (.ok (), { l with warnings := l.warnings ++ [msg] }) := rfl

theorem GW.run_ofExcept_ok {x : Except String α} {a : α} (h : x = .ok a) (l : EffLog) :
    GW.ofExcept x l = (.ok a, l) := by
  subst h; rfl

theorem GW.run_ofExcept_error {x : Except String α} {e : String} (h : x = .error e) (l : EffLog) :
    GW.ofExcept x l = (.error e, l) := by
  subst h; rfl

theorem GW.run_throw (e : String) (l : EffLog) :
    (GW.throw e : GW α) l = (.error e, l) := rfl

/-- src/utils/auth.ts, validateCredentials: throws when any of the three
credentials is falsy. -/
def validateCredentials (jiraHost loginName loginToken : Option String) : Except String Unit :=
  if !jsTruthy jiraHost || !jsTruthy loginName || !jsTruthy loginToken then
    .error "Missing required Jira credentials. Please provide them in the request or set them in the .env file."
  else
    .ok ()

/-- The yup base schema JiraApiRequestSchema: apply the environment
defaults to the three credential fields, then run the three nonempty
tests in declaration order.  yup validate resolves with the cast object
(defaults applied) or rejects with the message of the failing test. -/
def validateBaseSchema (env : Env) (a : RawArgs) : Except String RawArgs :=
  let host := a.jiraHost.getD (env.jiraHost.getD "")
  let name := a.loginName.getD (env.loginName.getD "")
  let token := a.loginToken.getD (env.loginToken.getD "")
  if jsTrim host = "" then
    .error "Jira host is required and must be a valid domain (e.g., \"company.atlassian.net\")"
  else if jsTrim name = "" then
    .error "Login name is required for Jira 8.1.0 authentication"
  else if jsTrim token = "" then
    .error "Login token is required for Jira 8.1.0 authentication"
  else
    .ok { a with jiraHost := some host, loginName := some name, loginToken := some token }

/-- The required plus format checks of a projectKey schema field. -/
def validateProjectKeyField (pk : Option String) : Except String String :=
  match pk with
  | none => .error "Project key is required"
  | some s =>
    if s = "" then .error "Project key is required"
    else if !validProjectKey s then
      .error "Invalid project key format. Only uppercase letters, numbers, and underscores are allowed"
    else .ok s

/-- JiraProjectMembersRequestSchema: base fields plus required projectKey. -/
def validateProjectMembersSchema (env : Env) (a : RawArgs) : Except String RawArgs := do
  let base ← validateBaseSchema env a
  let pk ← validateProjectKeyField a.projectKey
  .ok { base with projectKey := some pk }

/-- JiraCheckUserIssuesRequestSchema: base fields plus required
projectKey and required userName of minimum length 2. -/
def validateCheckUserIssuesSchema (env : Env) (a : RawArgs) : Except String RawArgs := do
  let base ← validateBaseSchema env a
  let pk ← validateProjectKeyField a.projectKey
  match a.userName with
  | none => .error "Username is required"
  | some un =>
    if un = "" then .error "Username is required"
    else if un.length < 2 then .error "Username must be at least 2 characters long"
    else .ok { base with projectKey := some pk, userName := some un }

/-- JiraSprintRequestSchema: base fields plus optional numeric boardId,
optional projectKey with the key format, and a state restricted to the
four allowed values with default active. -/
def validateSprintSchema (env : Env) (a : RawArgs) : Except String RawArgs := do
  let base ← validateBaseSchema env a
  match a.boardId with
  | some b =>
    if b ≠ "" && !allDigits b then .error "Board ID must be numeric"
    else validateSprintSchemaTail base a
  | none => validateSprintSchemaTail base a
where
  /-- The projectKey and state fields of the sprint schema. -/
  validateSprintSchemaTail (base a : RawArgs) : Except String RawArgs :=
    match a.projectKey with
    | some s =>
      if !validProjectKey s then
        .error "Invalid project key format. Only uppercase letters, numbers, and underscores are allowed"
      else validateSprintStateField base a
    | none => validateSprintStateField base a
  /-- The state field of the sprint schema, with its default. -/
  validateSprintStateField (base a : RawArgs) : Except String RawArgs :=
    let st := a.state.getD "active"
    if st = "active" || st = "future" || st = "closed" || st = "all" then
      .ok { base with boardId := a.boardId, projectKey := a.projectKey, state := some st }
    else
      .error "Sprint state must be one of: active, future, closed, all"

/-- src/handlers, validateAndGetCredentials: resolve each credential
from the arguments with the process environment as fallback, run
validateCredentials, and return the arguments unchanged. -/
def validateAndGetCredentials (env : Env) (args : RawArgs) : Except String RawArgs := do
  let jiraHost := jsOr args.jiraHost env.jiraHost
  let loginName := jsOr args.loginName env.loginName
  let loginToken := jsOr args.loginToken env.loginToken
  let _ ← validateCredentials jiraHost loginName loginToken
  .ok args

/-- One entry of the tool registry: the validation schema and the
handler of a tool. -/
structure ToolConfig where
  schema : RawArgs → Except String RawArgs
  handler : RawArgs → GW ToolResult

/-- src/handlers, handleCallTool: the dispatch entry point.  The
module-level toolConfigs table is passed as the configs parameter.  An
unknown tool name returns an error envelope without throwing; otherwise
the schema runs, then credential resolution, then the handler; every
exception of those three steps is caught at this boundary and converted
to an error envelope holding the message. -/
def handleCallTool (env : Env) (configs : String → Option ToolConfig)
    (name : String) (args : RawArgs) : GW ToolResult :=
  GW.tryCatch
    (match configs name with
     | none => pure (mkResult ("Unknown tool: " ++ name) true)
     | some toolConfig => do
        let validatedArgs ← GW.ofExcept (toolConfig.schema args)
        let argsWithCredentials ← GW.ofExcept (validateAndGetCredentials env validatedArgs)
        toolConfig.handler argsWithCredentials)
    (fun e => pure (mkResult ("Error: " ++ e) true))

/-- Model of JS String.prototype.split with a slash separator, keeping
empty segments, over the character list. -/
def splitOnSlash : List Char → List (List Char)
  | [] => [[]]
  | c :: rest =>
    let r := splitOnSlash rest
    if c = '/' then [] :: r
    else
      match r with
      | h :: t => (c :: h) :: t
      | [] => [[c]]

/-- The role id extracted from a role URL: split on slash, take the last
segment (Array.prototype.pop on the split result). -/
def roleIdOfUrl (roleUrl : String) : String :=
  String.mk ((splitOnSlash roleUrl.data).getLastD [])

/-- The role detail URL built by both member tools. -/
def roleDetailUrl (host projectKey roleUrl : String) : String :=
  host ++ "/rest/api/3/project/" ++ projectKey ++ "/role/" ++ roleIdOfUrl roleUrl

/-- The roles URL queried first by both member tools. -/
def projectRolesUrl (host projectKey : String) : String :=
  host ++ "/rest/api/3/project/" ++ projectKey ++ "/role"

/-- Join a list of strings with a comma separator, Array.prototype.join. -/
def joinComma (l : List String) : String :=
  String.intercalate ", " l

/-- Processing of one actor of one role detail by the shared merge loop:
skip actors with a falsy display name; append the role name to an
existing record of the same display name; otherwise insert a fresh
record at the end of the map. -/
def addActor (roleName : String) (m : List MemberRecord) (a : RoleActor) : List MemberRecord :=
  if a.displayName = "" then m
  else if m.any (fun r => r.displayName = a.displayName) then
    m.map (fun r =>
      if r.displayName = a.displayName then { r with roles := r.roles ++ [roleName] } else r)
  else
    m ++ [{ displayName := a.displayName, type := a.type,
            email := jsStrOr a.emailAddress "N/A", roles := [roleName] }]

/-- Processing of one role detail response: fold its actors through
addActor, guarded by the nonempty actors test of the code. -/
def addRoleActors (m : List MemberRecord) (p : String × ProjectRole) : List MemberRecord :=
  if p.2.actors.length > 0 then p.2.actors.foldl (addActor p.1) m else m

/-- The merge of the role detail responses into the insertion-ordered
allMembers map, shared by listProjectMembers and checkUserIssues. -/
def mergeMembers (roleDetails : List (String × ProjectRole)) : List MemberRecord :=
  roleDetails.foldl addRoleActors []

/-- The userFound flag of checkUserIssues: set while merging whenever a
truthy actor display name equals the requested user name after
toLowerCase on both sides. -/
def userFoundIn (roleDetails : List (String × ProjectRole)) (userName : String) : Bool :=
  roleDetails.any (fun p => p.2.actors.any (fun a =>
    a.displayName ≠ "" && jsToLower a.displayName = jsToLower userName))

/-- The concurrent fan-out over the role map entries: one role detail
request per entry whose URL value is a string, awaited together with
Promise.all, modelled as resolution in registration order. -/
def fetchRoleDetails (w : World) (host projectKey : String) :
    List (String × RoleUrlVal) → GW (List (String × ProjectRole))
  | [] => pure []
  | (roleName, .str roleUrl) :: rest => do
      let durl := roleDetailUrl host projectKey roleUrl
      let d ← GW.call (.getRoleDetail durl) (w.roleDetail durl)
      let tail ← fetchRoleDetails w host projectKey rest
      pure ((roleName, d) :: tail)
  | (_, .other) :: rest => fetchRoleDetails w host projectKey rest

/-- One row of the member table of listProjectMembers. -/
def memberTableRow (m : MemberRecord) : String :=
  "| " ++ m.displayName ++ " | " ++ m.type ++ " | " ++ m.email ++ " | " ++
    joinComma m.roles ++ " |\n"

/-- The body of listProjectMembers after credential resolution: fetch
the role map, fan out over the role details, merge the members and
render them.  No try/catch: any upstream failure propagates. -/
def listProjectMembersCore (w : World) (host projectKey : String) : GW ToolResult := do
  let projectRoles ← GW.call (.getProjectRoles (projectRolesUrl host projectKey))
    (w.projectRoles (projectRolesUrl host projectKey))
  let header := "# Project Members for " ++ projectKey ++ "\n\n"
  if projectRoles.length > 0 then do
    let roleDetails ← fetchRoleDetails w host projectKey projectRoles
    let allMembers := mergeMembers roleDetails
    if allMembers.length > 0 then
      pure (mkResult (header ++ "| Name | Type | Email | Roles |\n|------|------|-------|-------|\n"
        ++ String.join (allMembers.map memberTableRow)) false)
    else
      pure (mkResult (header ++ "No project members found.") false)
  else
    pure (mkResult (header ++ "No project roles found.") false)

/-- src/tools/listProjectMembers.ts, listProjectMembers.  The handler
revalidates its arguments, resolves credentials and runs the body. -/
def listProjectMembers (env : Env) (w : World) (args : RawArgs) : GW ToolResult := do
  let va ← GW.ofExcept (validateProjectMembersSchema env args)
  let jiraHost := jsOr va.jiraHost env.jiraHost
  let loginName := jsOr va.loginName env.loginName
  let loginToken := jsOr va.loginToken env.loginToken
  let projectKey := va.projectKey.getD ""
  if !jsTruthy jiraHost || !jsTruthy loginName || !jsTruthy loginToken then
    GW.throw "Missing required authentication credentials. Please provide jiraHost, loginName, and loginToken."
  else do
    let _ ← GW.ofExcept (validateCredentials jiraHost loginName loginToken)
    listProjectMembersCore w (normalizeJiraHost (jiraHost.getD "")) projectKey

/-- The fixed field projection of the check-user-issues search request. -/
def checkUserSearchFields : String :=
  "summary,status,assignee,created,issuetype,priority"

/-- The JQL string built by checkUserIssues for the second stage. -/
def buildUserIssuesJql (projectKey userName : String) : String :=
  "project = \"" ++ projectKey ++ "\" AND assignee = \"" ++ userName ++ "\" ORDER BY created DESC"

/-- One row of the issue table of checkUserIssues. -/
def issueTableRow (w : World) (i : Issue) : String :=
  "| " ++ i.key ++ " | " ++ jsStrOr i.fields.summary "No summary" ++ " | " ++
    jsStrOr i.fields.statusName "Unknown" ++ " | " ++
    jsStrOr i.fields.issuetypeName "Unknown" ++ " | " ++
    w.localeDateString i.fields.created ++ " |\n"

/-- The member filter of the not-found listing of checkUserIssues: a
record is rendered unless its type is atlassian-user-role-actor and its
display name contains one of the two app-name substrings. -/
def includeMemberInListing (m : MemberRecord) : Bool :=
  m.type ≠ "atlassian-user-role-actor" ||
    (!strContains m.displayName "for Jira" && !strContains m.displayName "Atlassian")

/-- One row of the available-members table of checkUserIssues. -/
def availableMemberRow (m : MemberRecord) : String :=
  "| " ++ m.displayName ++ " | " ++ joinComma m.roles ++ " |\n"

/-- The available-members section rendered when the user is not found. -/
def notFoundMembersText (userName projectKey : String) (allMembers : List MemberRecord) : String :=
  "❌ User \"" ++ userName ++ "\" is NOT a member of project \"" ++ projectKey ++
    "\". No issues will be fetched.\n\n" ++
    "### Available Project Members:\n\n" ++
    "| Name | Roles |\n" ++
    "|------|-------|\n" ++
    String.join ((allMembers.filter includeMemberInListing).map availableMemberRow)

/-- The rendered text of the found branch: the roles line looked up via
the first map key matching case-insensitively, the step 2 heading, and
the issue table (or its absence message) of the search response. -/
def foundSectionText (w : World) (projectKey userName : String)
    (allMembers : List MemberRecord) (searchResults : Option (List Issue)) : String :=
  let foundKey := ((allMembers.map (fun r => r.displayName)).find?
    (fun n => jsToLower n = jsToLower userName)).getD ""
  let userInfo := allMembers.find? (fun r => r.displayName = foundKey)
  let rolesLine := "✅ User \"" ++ userName ++ "\" found in project with the following roles: " ++
    ((userInfo.map (fun r => joinComma r.roles)).getD "undefined") ++ "\n\n"
  let step2 := "## Step 2: Fetching issues assigned to \"" ++ userName ++ "\" in project \"" ++
    projectKey ++ "\"\n\n"
  let issues := searchResults.getD []
  if issues.length > 0 then
    rolesLine ++ step2 ++ "| Issue Key | Summary | Status | Type | Created |\n" ++
      "|-----------|---------|--------|------|--------|\n" ++
      String.join (issues.map (issueTableRow w))
  else
    rolesLine ++ step2 ++ "No issues found assigned to this user in the project."

/-- The found-branch continuation of checkUserIssues: run the
second-stage search and render foundSectionText on its response. -/
def checkUserFoundSection (w : World) (host projectKey userName : String)
    (allMembers : List MemberRecord) : GW String := do
  let jql := buildUserIssuesJql projectKey userName
  let searchResults ← GW.call (.searchCall jql 50 checkUserSearchFields) (w.search jql)
  pure (foundSectionText w projectKey userName allMembers searchResults)

/-- The first heading of the check-user-issues response. -/
def checkHeaderText (userName projectKey : String) : String :=
  "# Checking User \"" ++ userName ++ "\" in Project \"" ++ projectKey ++ "\"\n\n"

/-- The heading of step 1 of the check-user-issues response. -/
def checkStep1Text (userName projectKey : String) : String :=
  checkHeaderText userName projectKey ++ "## Step 1: Checking if user \"" ++ userName ++
    "\" is a member of project \"" ++ projectKey ++ "\"\n\n"

/-- The body of checkUserIssues after credential resolution, continued:
fetch the role map, fan out, merge, then branch on the membership
flag. -/
def checkUserCore (w : World) (host projectKey userName : String) : GW ToolResult := do
  let projectRoles ← GW.call (.getProjectRoles (projectRolesUrl host projectKey))
    (w.projectRoles (projectRolesUrl host projectKey))
  if projectRoles.length > 0 then do
    let roleDetails ← fetchRoleDetails w host projectKey projectRoles
    let allMembers := mergeMembers roleDetails
    let userFound := userFoundIn roleDetails userName
    if userFound then do
      let section2 ← checkUserFoundSection w host projectKey userName allMembers
      pure (mkResult (checkStep1Text userName projectKey ++ section2) false)
    else
      pure (mkResult (checkStep1Text userName projectKey ++
        notFoundMembersText userName projectKey allMembers) false)
  else
    pure (mkResult (checkHeaderText userName projectKey ++
      "⚠️ No project roles found. Unable to determine project membership.") false)

/-- src/tools/checkUserIssues.ts, checkUserIssues.  The handler
revalidates its arguments, resolves credentials and runs the body. -/
def checkUserIssues (env : Env) (w : World) (args : RawArgs) : GW ToolResult := do
  let va ← GW.ofExcept (validateCheckUserIssuesSchema env args)
  let jiraHost := jsOr va.jiraHost env.jiraHost
  let loginName := jsOr va.loginName env.loginName
  let loginToken := jsOr va.loginToken env.loginToken
  let projectKey := va.projectKey.getD ""
  let userName := va.userName.getD ""
  if !jsTruthy jiraHost || !jsTruthy loginName || !jsTruthy loginToken then
    GW.throw "Missing required authentication credentials. Please provide jiraHost, loginName, and loginToken."
  else do
    let _ ← GW.ofExcept (validateCredentials jiraHost loginName loginToken)
    checkUserCore w (normalizeJiraHost (jiraHost.getD "")) projectKey userName

/-- Board resolution of listSprints, mutually exclusive precedence:
a truthy boardId wins and is the single board; otherwise a truthy
projectKey queries boards filtered by project and uses all of them;
otherwise an unfiltered query truncated to the first 5 boards.  An
empty query outcome returns the terminal no-boards envelope (inl). -/
def resolveBoards (w : World) (boardId projectKey : Option String) :
    GW (ToolResult ⊕ List String) :=
  if jsTruthy boardId then
    pure (.inr [boardId.getD ""])
  else if jsTruthy projectKey then do
    let values ← GW.call (.getBoards projectKey) (w.boards projectKey)
    match values with
    | some boards =>
      if boards.length > 0 then
        pure (.inr (boards.map (fun b => b.id)))
      else
        pure (.inl (mkResult ("# No Boards Found\n\nNo boards were found for project key: " ++
          projectKey.getD "") false))
    | none =>
      pure (.inl (mkResult ("# No Boards Found\n\nNo boards were found for project key: " ++
        projectKey.getD "") false))
  else do
    let values ← GW.call (.getBoards none) (w.boards none)
    match values with
    | some boards =>
      if boards.length > 0 then
        pure (.inr ((boards.take 5).map (fun b => b.id)))
      else
        pure (.inl (mkResult "# No Boards Found\n\nNo boards were found in your Jira instance." false))
    | none =>
      pure (.inl (mkResult "# No Boards Found\n\nNo boards were found in your Jira instance." false))

/-- The query parameter sent with each board sprint request: the state
filter unless the state is all. -/
def stateParam (state : String) : Option String :=
  if state ≠ "all" then some state else none

/-- The per-board sprint fetch loop of listSprints, continued.  Each
board request carries the server-side state filter unless the state is
all; a failing board is caught in its own try/catch, emits the console
warning and contributes nothing, without aborting the other boards. -/
def collectSprints (w : World) (state : String) : List String → GW (List TaggedSprint)
  | [] => pure []
  | bId :: rest => do
      let batch ← GW.tryCatch
        (do
          let values ← GW.call (.getBoardSprints bId (stateParam state))
            (w.boardSprints bId (stateParam state))
          match values with
          | some sprints =>
            if sprints.length > 0 then
              pure (sprints.map (fun s => { sprint := s, boardId := bId }))
            else
              pure []
          | none => pure [])
        (fun _ => do
          GW.warn ("Could not fetch sprints for board " ++ bId)
          pure [])
      let tail ← collectSprints w state rest
      pure (batch ++ tail)

/-- The sort key of the sprint ordering: the parsed start date time, or
0 when the sprint has no start date. -/
def sprintTime (w : World) (s : TaggedSprint) : Nat :=
  match s.sprint.startDate with
  | some d => w.parseTime d
  | none => 0

/-- The sprint sort of listSprints: Array.prototype.sort with the
comparator dateB minus dateA, a stable descending sort on sprintTime. -/
def sortSprints (w : World) (l : List TaggedSprint) : List TaggedSprint :=
  l.mergeSort (fun a b => sprintTime w b ≤ sprintTime w a)

/-- The no-sprints terminal message of listSprints. -/
def noSprintsMessage (state : String) (boardId projectKey : Option String) : String :=
  let base := "# No Sprints Found\n\n" ++
    (if state ≠ "all" then "No " ++ state ++ " sprints were found" else "No sprints were found")
  if jsTruthy boardId then base ++ " for board ID: " ++ boardId.getD ""
  else if jsTruthy projectKey then base ++ " for project key: " ++ projectKey.getD ""
  else base

/-- One row of the sprint summary table. -/
def sprintTableRow (w : World) (s : TaggedSprint) : String :=
  let startDate := match s.sprint.startDate with
    | some d => w.localeDateString d
    | none => "Not started"
  let endDate := match s.sprint.endDate with
    | some d => w.localeDateString d
    | none => "Not set"
  "| " ++ s.sprint.id ++ " | " ++ s.sprint.name ++ " | " ++ s.boardId ++ " | " ++
    capitalizeFirst s.sprint.state ++ " | " ++ startDate ++ " | " ++ endDate ++ " |\n"

/-- The issues table of one sprint detail block. -/
def sprintIssuesTable (host : String) (issues : List SprintIssue) : String :=
  "#### Issues (" ++ toString issues.length ++ ")\n\n" ++
  "| Key | Summary | Type | Status | Assignee |\n" ++
  "|-----|---------|------|--------|----------|\n" ++
  String.join (issues.map (fun i =>
    "| [" ++ i.key ++ "](" ++ host ++ "/browse/" ++ i.key ++ ") | " ++ i.summary ++ " | " ++
      (match i.issuetypeName with | some t => t | none => "Task") ++ " | " ++
      (match i.statusName with | some st => st | none => "Unknown") ++ " | " ++
      (match i.assigneeDisplayName with | some a => a | none => "Unassigned") ++ " |\n"))

/-- The static text of one sprint detail block, before the issue fetch. -/
def sprintDetailHead (w : World) (host : String) (projectKey : Option String)
    (s : TaggedSprint) : String :=
  "### " ++ s.sprint.name ++ " (ID: " ++ s.sprint.id ++ ")\n\n" ++
  "**Board ID:** " ++ s.boardId ++ "\n" ++
  "**Status:** " ++ capitalizeFirst s.sprint.state ++ "\n" ++
  (match s.sprint.startDate with
   | some d => "**Start Date:** " ++ w.localeString d ++ "\n"
   | none => "") ++
  (match s.sprint.endDate with
   | some d => "**End Date:** " ++ w.localeString d ++ "\n"
   | none => "") ++
  (match s.sprint.goal with
   | some g => if g ≠ "" then "**Goal:** " ++ g ++ "\n" else ""
   | none => "") ++
  "**View in Jira:** " ++ host ++ "/jira/software/projects/" ++
    jsStrOr projectKey "browse" ++ "/boards/" ++ s.boardId ++ "/sprints/" ++ s.sprint.id ++ "\n\n"

/-- The per-sprint detail rendering loop, fetching the issues of each
sprint inside its own try/catch: a failing issue fetch renders an
inline diagnostic without aborting the rest of the report. -/
def renderSprintDetails (w : World) (host : String) (projectKey : Option String) :
    List TaggedSprint → String → GW String
  | [], acc => pure acc
  | s :: rest, acc => do
      let head := sprintDetailHead w host projectKey s
      let issuesText ← GW.tryCatch
        (do
          let values ← GW.call (.getSprintIssues s.sprint.id "summary,status,assignee,issuetype")
            (w.sprintIssues s.sprint.id)
          match values with
          | some issues =>
            if issues.length > 0 then
              pure (sprintIssuesTable host issues)
            else
              pure "No issues found in this sprint.\n"
          | none => pure "No issues found in this sprint.\n")
        (fun _ => pure "Could not fetch issues for this sprint.\n")
      renderSprintDetails w host projectKey rest (acc ++ head ++ issuesText ++ "\n---\n\n")

/-- The catch block of listSprints: upstream axios errors are modelled
by their message string, so the rendered message is the error message
when nonempty and the generic sentence otherwise. -/
def sprintErrorResult (e : String) : ToolResult :=
  mkResult ("# Error\n\n" ++
    (if e ≠ "" then e else "An error occurred while retrieving sprints.")) true

/-- The sprint summary table heading and rows over the sorted set. -/
def sprintsOverviewText (w : World) (state : String) (sorted : List TaggedSprint) : String :=
  "# " ++ capitalizeFirst state ++ " Sprints\n\n" ++
  "| ID | Name | Board | Status | Start Date | End Date |\n" ++
  "|----|------|-------|--------|------------|----------|\n" ++
  String.join (sorted.map (sprintTableRow w)) ++
  "\n## Sprint Details\n\n"

/-- The body of listSprints inside its try block, after credential
resolution: board resolution, the per-board sprint collection, the
empty check, the descending sort and the report rendering. -/
def listSprintsBody (w : World) (host : String) (boardId projectKey : Option String)
    (state : String) : GW ToolResult := do
  let resolved ← resolveBoards w boardId projectKey
  match resolved with
  | .inl r => pure r
  | .inr boardIds => do
    let allSprints ← collectSprints w state boardIds
    if allSprints.length = 0 then
      pure (mkResult (noSprintsMessage state boardId projectKey) false)
    else do
      let sorted := sortSprints w allSprints
      let text ← renderSprintDetails w host projectKey sorted (sprintsOverviewText w state sorted)
      pure (mkResult text false)

/-- src/tools/listSprints (second half of src/tools/checkUserIssues.ts),
listSprints.  The handler revalidates its arguments, resolves
credentials, then runs its whole body inside one try/catch converting
any uncaught failure to the error envelope. -/
def listSprints (env : Env) (w : World) (args : RawArgs) : GW ToolResult := do
  let va ← GW.ofExcept (validateSprintSchema env args)
  let jiraHost := jsOr va.jiraHost env.jiraHost
  let loginName := jsOr va.loginName env.loginName
  let loginToken := jsOr va.loginToken env.loginToken
  let boardId := va.boardId
  let projectKey := va.projectKey
  let state := jsStrOr va.state "active"
  if !jsTruthy jiraHost || !jsTruthy loginName || !jsTruthy loginToken then
    GW.throw "Missing required authentication credentials. Please provide jiraHost, loginName, and loginToken."
  else do
    let _ ← GW.ofExcept (validateCredentials jiraHost loginName loginToken)
    let host := normalizeJiraHost (jiraHost.getD "")
    GW.tryCatch (listSprintsBody w host boardId projectKey state)
      (fun e => pure (sprintErrorResult e))

deriving instance DecidableEq for Except

theorem GW.tryCatch_pure_total (x : GW α) (g : String → α) (l : EffLog) :
    ∃ r l', GW.tryCatch x (fun e => pure (g e)) l = (.ok r, l') := by
  rcases h : x l with ⟨res, l'⟩
  cases res with
  | ok a => exact ⟨a, l', GW.run_tryCatch_ok x _ h⟩
  | error e => exact ⟨g e, l', by rw [GW.run_tryCatch_error x _ h]; rfl⟩

theorem handleCallTool_total (env : Env) (configs : String → Option ToolConfig)
    (name : String) (args : RawArgs) (l : EffLog) :
    ∃ r l', handleCallTool env configs name args l = (.ok r, l') := by
  unfold handleCallTool
  exact GW.tryCatch_pure_total _ _ l

theorem handleCallTool_unknown (env : Env) (configs : String → Option ToolConfig)
    (name : String) (args : RawArgs) (l : EffLog) (hc : configs name = none) :
    handleCallTool env configs name args l = (.ok (mkResult ("Unknown tool: " ++ name) true), l) := by
  simp only [handleCallTool, hc]
  rfl

theorem handleCallTool_schema_error (env : Env) (configs : String → Option ToolConfig)
    (name : String) (args : RawArgs) (l : EffLog) {cfg : ToolConfig} {e : String}
    (hc : configs name = some cfg) (hs : cfg.schema args = .error e) :
    handleCallTool env configs name args l = (.ok (mkResult ("Error: " ++ e) true), l) := by
  simp only [handleCallTool, hc]
  rw [GW.run_tryCatch_error _ _ (GW.run_bind_error _ _ (GW.run_ofExcept_error hs l))]
  rfl

theorem handleCallTool_cred_error (env : Env) (configs : String → Option ToolConfig)
    (name : String) (args : RawArgs) (l : EffLog) {cfg : ToolConfig} {va : RawArgs} {e : String}
    (hc : configs name = some cfg) (hs : cfg.schema args = .ok va)
    (hcred : validateAndGetCredentials env va = .error e) :
    handleCallTool env configs name args l = (.ok (mkResult ("Error: " ++ e) true), l) := by
  simp only [handleCallTool, hc, GW.tryCatch]
  rw [GW.run_bind_ok _ _ (GW.run_ofExcept_ok hs l),
    GW.run_bind_error _ _ (GW.run_ofExcept_error hcred l)]
  rfl

theorem handleCallTool_handler_run (env : Env) (configs : String → Option ToolConfig)
    (name : String) (args : RawArgs) (l : EffLog) {cfg : ToolConfig} {va va' : RawArgs}
    (hc : configs name = some cfg) (hs : cfg.schema args = .ok va)
    (hcred : validateAndGetCredentials env va = .ok va') :
    handleCallTool env configs name args l =
      GW.tryCatch (cfg.handler va') (fun e => pure (mkResult ("Error: " ++ e) true)) l := by
  simp only [handleCallTool, hc, GW.tryCatch]
  rw [GW.run_bind_ok _ _ (GW.run_ofExcept_ok hs l), GW.run_bind_ok _ _ (GW.run_ofExcept_ok hcred l)]

theorem handleCallTool_handler_error (env : Env) (configs : String → Option ToolConfig)
    (name : String) (args : RawArgs) (l : EffLog) {cfg : ToolConfig} {va va' : RawArgs}
    {e : String} {l' : EffLog}
    (hc : configs name = some cfg) (hs : cfg.schema args = .ok va)
    (hcred : validateAndGetCredentials env va = .ok va')
    (hh : cfg.handler va' l = (.error e, l')) :
    handleCallTool env configs name args l = (.ok (mkResult ("Error: " ++ e) true), l') := by
  rw [handleCallTool_handler_run env configs name args l hc hs hcred,
    GW.run_tryCatch_error _ _ hh]
  rfl

theorem handleCallTool_handler_ok (env : Env) (configs : String → Option ToolConfig)
    (name : String) (args : RawArgs) (l : EffLog) {cfg : ToolConfig} {va va' : RawArgs}
    {r : ToolResult} {l' : EffLog}
    (hc : configs name = some cfg) (hs : cfg.schema args = .ok va)
    (hcred : validateAndGetCredentials env va = .ok va')
    (hh : cfg.handler va' l = (.ok r, l')) :
    handleCallTool env configs name args l = (.ok r, l') := by
  rw [handleCallTool_handler_run env configs name args l hc hs hcred,
    GW.run_tryCatch_ok _ _ hh]

/-- C1: The dispatch entry point never throws.  An unregistered tool
name yields an Unknown-tool envelope with isError true, unchanged log
(zero upstream calls); a registered tool whose schema rejects the
arguments yields an error envelope with isError true and unchanged log
(zero upstream calls); a credential resolution failure likewise; and
any exception thrown by the handler is converted at the dispatch
boundary into the error envelope holding the message. -/
theorem C1_dispatch_containment (env : Env) (configs : String → Option ToolConfig)
    (name : String) (args : RawArgs) (l : EffLog) :
    (∃ r l', handleCallTool env configs name args l = (.ok r, l')) ∧
    (configs name = none →
      handleCallTool env configs name args l
        = (.ok (mkResult ("Unknown tool: " ++ name) true), l)) ∧
    (∀ cfg e, configs name = some cfg → cfg.schema args = .error e →
      handleCallTool env configs name args l = (.ok (mkResult ("Error: " ++ e) true), l)) ∧
    (∀ cfg va e, configs name = some cfg → cfg.schema args = .ok va →
      validateAndGetCredentials env va = .error e →
      handleCallTool env configs name args l = (.ok (mkResult ("Error: " ++ e) true), l)) ∧
    (∀ cfg va va' e l', configs name = some cfg → cfg.schema args = .ok va →
      validateAndGetCredentials env va = .ok va' →
      cfg.handler va' l = (.error e, l') →
      handleCallTool env configs name args l = (.ok (mkResult ("Error: " ++ e) true), l')) := by
  refine ⟨handleCallTool_total env configs name args l,
    fun hc => handleCallTool_unknown env configs name args l hc,
    fun cfg e hc hs => handleCallTool_schema_error env configs name args l hc hs,
    fun cfg va e hc hs hcred => handleCallTool_cred_error env configs name args l hc hs hcred,
    fun cfg va va' e l' hc hs hcred hh =>
      handleCallTool_handler_error env configs name args l hc hs hcred hh⟩

/-- An environment with no credential variables set, used by concrete
witness scenarios. -/
def sampleEnv : Env :=
  { jiraHost := none, loginName := none, loginToken := none }

/-- An upstream world whose every request fails, used by concrete
witness scenarios. -/
def offlineWorld : World :=
  { parseTime := fun _ => 0
    localeDateString := fun _ => ""
    localeString := fun _ => ""
    projectRoles := fun _ => .error "offline"
    roleDetail := fun _ => .error "offline"
    search := fun _ => .error "offline"
    boards := fun _ => .error "offline"
    boardSprints := fun _ _ => .error "offline"
    sprintIssues := fun _ => .error "offline" }

/-- A registry holding the check-user-issues tool, as registered in the
module-level toolConfigs table. -/
def sampleConfigs : String → Option ToolConfig := fun n =>
  if n = "jira_check_user_issues" then
    some { schema := validateCheckUserIssuesSchema sampleEnv
           handler := checkUserIssues sampleEnv offlineWorld }
  else none

/-- Arguments that pass the check-user-issues schema. -/
def wellFormedCheckArgs : RawArgs :=
  { emptyArgs with
    jiraHost := some "jira.example.com"
    loginName := some "u"
    loginToken := some "t"
    projectKey := some "PROJ"
    userName := some "jane doe" }

/-- The registry entry held by sampleConfigs. -/
def sampleCheckConfig : ToolConfig :=
  { schema := validateCheckUserIssuesSchema sampleEnv
    handler := checkUserIssues sampleEnv offlineWorld }

theorem sampleConfigs_hit :
    sampleConfigs "jira_check_user_issues" = some sampleCheckConfig := by
  simp [sampleConfigs, sampleCheckConfig]

/-- Witness for C1: the dispatcher applied to an unregistered name, to a
registered tool with schema-rejected arguments, and to a handler whose
first upstream call throws. -/
theorem C1_dispatch_containment_witness :
    handleCallTool sampleEnv sampleConfigs "nope" emptyArgs emptyLog
      = (.ok (mkResult "Unknown tool: nope" true), emptyLog) ∧
    handleCallTool sampleEnv sampleConfigs "jira_check_user_issues" emptyArgs emptyLog
      = (.ok (mkResult "Error: Jira host is required and must be a valid domain (e.g., \"company.atlassian.net\")" true), emptyLog) ∧
    handleCallTool sampleEnv sampleConfigs "jira_check_user_issues" wellFormedCheckArgs emptyLog
      = (.ok (mkResult "Error: offline" true),
         { calls := [.getProjectRoles "https://jira.example.com/rest/api/3/project/PROJ/role"],
           warnings := [] }) := by
  refine ⟨(C1_dispatch_containment sampleEnv sampleConfigs "nope" emptyArgs emptyLog).2.1
      (by simp [sampleConfigs]),
    (C1_dispatch_containment sampleEnv sampleConfigs "jira_check_user_issues" emptyArgs emptyLog).2.2.1
      sampleCheckConfig "Jira host is required and must be a valid domain (e.g., \"company.atlassian.net\")"
      sampleConfigs_hit (by decide),
    (C1_dispatch_containment sampleEnv sampleConfigs "jira_check_user_issues" wellFormedCheckArgs emptyLog).2.2.2.2
      sampleCheckConfig wellFormedCheckArgs wellFormedCheckArgs "offline"
      { calls := [.getProjectRoles "https://jira.example.com/rest/api/3/project/PROJ/role"],
        warnings := [] }
      sampleConfigs_hit (by decide) (by decide) (by decide)⟩

/-- The roles list of the member record stored for display name d, or
none when the map holds no such record. -/
def rolesAt (m : List MemberRecord) (d : String) : Option (List String) :=
  (m.find? (fun r => r.displayName = d)).map (fun r => r.roles)

/-- The role name contributions of one role detail to the record of
display name d: one copy of the role name per occurrence of d in the
actors array. -/
def rolesOfRole (roleName : String) (actors : List RoleActor) (d : String) : List String :=
  (actors.filter (fun a => a.displayName = d)).map (fun _ => roleName)

/-- The reference roles list of display name d over a whole role detail
list, in processing order. -/
def rolesOf (rds : List (String × ProjectRole)) (d : String) : List String :=
  rds.flatMap (fun p => rolesOfRole p.1 p.2.actors d)

/-- How a merge step extends the stored roles of one display name: an
existing record appends, an absent record is created only by a
nonempty contribution. -/
def extendRoles (prev : Option (List String)) (next : List String) : Option (List String) :=
  match prev with
  | some rs => some (rs ++ next)
  | none => if next.isEmpty then none else some next

theorem extendRoles_nil (prev : Option (List String)) : extendRoles prev [] = prev := by
  cases prev <;> simp [extendRoles]

theorem extendRoles_append (prev : Option (List String)) (a b : List String) :
    extendRoles (extendRoles prev a) b = extendRoles prev (a ++ b) := by
  cases prev with
  | some rs => simp [extendRoles, List.append_assoc]
  | none =>
    cases a with
    | nil => simp [extendRoles]
    | cons x xs => simp [extendRoles]

theorem find?_map_name_preserving (f : MemberRecord → MemberRecord)
    (hf : ∀ r, (f r).displayName = r.displayName) (m : List MemberRecord) (d : String) :
    (m.map f).find? (fun r => r.displayName = d) =
      (m.find? (fun r => r.displayName = d)).map f := by
  induction m with
  | nil => rfl
  | cons r m ih =>
    simp only [List.map_cons, List.find?_cons]
    by_cases hr : r.displayName = d
    · simp [hf, hr]
    · simp [hf, hr, ih]

theorem rolesAt_map_update (m : List MemberRecord) (n rn d : String) :
    rolesAt (m.map (fun r =>
      if r.displayName = n then { r with roles := r.roles ++ [rn] } else r)) d =
    if n = d then (rolesAt m d).map (fun rs => rs ++ [rn]) else rolesAt m d := by
  have hfind := find?_map_name_preserving
    (fun r => if r.displayName = n then { r with roles := r.roles ++ [rn] } else r)
    (fun r => by by_cases h : r.displayName = n <;> simp [h]) m d
  unfold rolesAt
  rw [hfind]
  rcases h : m.find? (fun r => r.displayName = d) with _ | r0
  · by_cases hn : n = d <;> simp [hn, h]
  · have hr0 : r0.displayName = d := by simpa using List.find?_some h
    by_cases hn : n = d
    · subst hn
      simp [h, hr0]
    · have hr0n : r0.displayName ≠ n := fun hc => hn (hc.symm.trans hr0)
      simp [h, hr0n, hn]

theorem find?_eq_none_of_any_false {m : List MemberRecord} {d : String}
    (h : m.any (fun r => r.displayName = d) = false) :
    m.find? (fun r => r.displayName = d) = none := by
  rw [List.find?_eq_none]
  intro x hx
  rw [List.any_eq_false] at h
  simpa using h x hx

theorem rolesAt_addActor (rn : String) (m : List MemberRecord) (a : RoleActor)
    {d : String} (hd : d ≠ "") :
    rolesAt (addActor rn m a) d =
      if a.displayName = d then extendRoles (rolesAt m d) [rn] else rolesAt m d := by
  unfold addActor
  by_cases ha : a.displayName = ""
  · rw [if_pos ha, if_neg (fun hc => hd (hc.symm.trans ha))]
  · rw [if_neg ha]
    by_cases hany : m.any (fun r => r.displayName = a.displayName)
    · rw [if_pos hany, rolesAt_map_update]
      by_cases heq : a.displayName = d
      · rw [if_pos heq, if_pos heq]
        rcases hfind : (m.find? (fun r => r.displayName = d)) with _ | r
        · rw [List.any_eq_true] at hany
          rcases hany with ⟨x, hx, hxp⟩
          rw [List.find?_eq_none] at hfind
          exact absurd (by simpa using hxp) (by simpa [heq] using hfind x hx)
        · simp [rolesAt, hfind, extendRoles]
      · rw [if_neg heq, if_neg heq]
    · rw [Bool.not_eq_true] at hany
      rw [if_neg (by simp [hany])]
      have hnone := find?_eq_none_of_any_false hany
      by_cases heq : a.displayName = d
      · rw [heq] at hnone
        simp [rolesAt, List.find?_append, hnone, List.find?_cons, heq, extendRoles]
      · simp [rolesAt, List.find?_append, hnone, List.find?_cons, heq]

theorem rolesAt_foldl_addActor (rn : String) (as : List RoleActor)
    {d : String} (hd : d ≠ "") :
    ∀ m : List MemberRecord,
      rolesAt (as.foldl (addActor rn) m) d = extendRoles (rolesAt m d) (rolesOfRole rn as d) := by
  induction as with
  | nil => intro m; simp [rolesOfRole, extendRoles_nil]
  | cons a as ih =>
    intro m
    rw [List.foldl_cons, ih (addActor rn m a), rolesAt_addActor rn m a hd]
    by_cases heq : a.displayName = d
    · rw [if_pos heq, extendRoles_append]
      simp [rolesOfRole, heq]
    · rw [if_neg heq]
      simp [rolesOfRole, heq]

theorem rolesAt_addRoleActors (m : List MemberRecord) (p : String × ProjectRole)
    {d : String} (hd : d ≠ "") :
    rolesAt (addRoleActors m p) d = extendRoles (rolesAt m d) (rolesOfRole p.1 p.2.actors d) := by
  unfold addRoleActors
  by_cases hl : p.2.actors.length > 0
  · rw [if_pos hl, rolesAt_foldl_addActor p.1 p.2.actors hd m]
  · have : p.2.actors = [] := by
      cases h : p.2.actors with
      | nil => rfl
      | cons x xs => rw [h] at hl; simp at hl
    rw [if_neg hl, this]
    simp [rolesOfRole, extendRoles_nil]

theorem rolesAt_foldl_addRoleActors (rds : List (String × ProjectRole))
    {d : String} (hd : d ≠ "") :
    ∀ m : List MemberRecord,
      rolesAt (rds.foldl addRoleActors m) d = extendRoles (rolesAt m d) (rolesOf rds d) := by
  induction rds with
  | nil => intro m; simp [rolesOf, extendRoles_nil]
  | cons p rds ih =>
    intro m
    rw [List.foldl_cons, ih (addRoleActors m p), rolesAt_addRoleActors m p hd,
      extendRoles_append]
    simp [rolesOf]

/-- The central characterization of the shared merge: the roles stored
for a display name are exactly its reference contributions in
processing order, and a record exists exactly when some contribution
is nonempty. -/
theorem rolesAt_mergeMembers (rds : List (String × ProjectRole)) {d : String} (hd : d ≠ "") :
    rolesAt (mergeMembers rds) d = extendRoles none (rolesOf rds d) := by
  unfold mergeMembers
  rw [rolesAt_foldl_addRoleActors rds hd []]
  rfl

theorem extendRoles_none (next : List String) :
    extendRoles none next = if next.isEmpty then none else some next := rfl

theorem rolesOf_perm {rds rds' : List (String × ProjectRole)} (h : rds.Perm rds')
    (d : String) : (rolesOf rds d).Perm (rolesOf rds' d) := by
  simpa [rolesOf, List.flatMap_def] using (h.map (fun p => rolesOfRole p.1 p.2.actors d)).flatten

theorem rolesAt_isSome (m : List MemberRecord) (d : String) :
    (rolesAt m d).isSome ↔ ∃ r ∈ m, r.displayName = d := by
  simp [rolesAt, List.find?_isSome]

/-- C4: For every role detail multiset and any permutation of the order
in which the role detail responses are merged, the aggregation yields
the same records up to role multiplicity: one record exists for a
display name in one order exactly when it does in the other, and its
set of role names is the same.  The merged content therefore does not
depend on the completion order of the concurrent role detail
requests. -/
theorem C4_merge_order_independence (rds rds' : List (String × ProjectRole))
    (h : rds.Perm rds') (d : String) (hd : d ≠ "") :
    Option.map List.toFinset (rolesAt (mergeMembers rds) d) =
      Option.map List.toFinset (rolesAt (mergeMembers rds') d) := by
  rw [rolesAt_mergeMembers rds hd, rolesAt_mergeMembers rds' hd,
    extendRoles_none, extendRoles_none]
  have hp := rolesOf_perm h d
  by_cases hn : (rolesOf rds d).isEmpty
  · have hnil : rolesOf rds d = [] := by simpa using hn
    have hnil' : rolesOf rds' d = [] := (hnil ▸ hp).symm.eq_nil
    simp [hnil, hnil']
  · have hn' : ¬(rolesOf rds' d).isEmpty := by
      intro hc
      have hnil' : rolesOf rds' d = [] := by simpa using hc
      exact hn (by simp [(hnil' ▸ hp).eq_nil])
    simp only [if_neg hn, if_neg hn', Option.map_some]
    exact congrArg some (List.toFinset_eq_of_perm _ _ hp)

/-- A member of role Administrators, used by concrete scenarios. -/
def janeActor : RoleActor :=
  { displayName := "Jane Doe", type := "atlassian-user-role-actor", emailAddress := none }

/-- A second member, used by concrete scenarios. -/
def bobActor : RoleActor :=
  { displayName := "Bob", type := "atlassian-user-role-actor", emailAddress := some "bob@x.io" }

/-- A role detail pair for the Administrators role. -/
def adminRolePair : String × ProjectRole :=
  ("Administrators", { actors := [janeActor, bobActor] })

/-- A role detail pair for the Developers role. -/
def devRolePair : String × ProjectRole :=
  ("Developers", { actors := [janeActor] })

/-- Witness for C4: swapping the arrival order of two role details
leaves the role set of Jane Doe unchanged. -/
theorem C4_merge_order_independence_witness :
    Option.map List.toFinset (rolesAt (mergeMembers [adminRolePair, devRolePair]) "Jane Doe") =
      Option.map List.toFinset (rolesAt (mergeMembers [devRolePair, adminRolePair]) "Jane Doe") :=
  C4_merge_order_independence [adminRolePair, devRolePair] [devRolePair, adminRolePair]
    (List.Perm.swap devRolePair adminRolePair []) "Jane Doe" (by decide)

/-- A role detail list in which the same actor appears twice in the
actors array of one role. -/
def dupRoleDetails : List (String × ProjectRole) :=
  [("Administrators", { actors := [janeActor, janeActor] })]

/-- Counterexample to C5 as stated: when an actor appears twice in the
same role actors array, the merge stores that role name twice in the
roles of the record, not once. -/
theorem C5_counterexample :
    rolesAt (mergeMembers dupRoleDetails) "Jane Doe" = some ["Administrators", "Administrators"] ∧
    rolesAt (mergeMembers dupRoleDetails) "Jane Doe" ≠ some ["Administrators"] ∧
    ((rolesAt (mergeMembers dupRoleDetails) "Jane Doe").getD []).Nodup = false := by
  decide

theorem length_le_one_nodup {α : Type} {l : List α} (h : l.length ≤ 1) : l.Nodup := by
  cases l with
  | nil => exact List.nodup_nil
  | cons x xs =>
    cases xs with
    | nil => simp
    | cons y ys => simp at h

theorem mem_rolesOfRole {rn roleName d : String} {actors : List RoleActor} :
    rn ∈ rolesOfRole roleName actors d ↔
      roleName = rn ∧ ∃ a ∈ actors, a.displayName = d := by
  simp only [rolesOfRole, List.mem_map, List.mem_filter]
  constructor
  · rintro ⟨a, ⟨ha, hd⟩, hrn⟩
    exact ⟨hrn, a, ha, by simpa using hd⟩
  · rintro ⟨hrn, a, ha, hd⟩
    exact ⟨a, ⟨ha, by simpa using hd⟩, hrn⟩

/-- C5, amended: the roles collection of the record of a display name
is exactly its in-order reference contribution list rolesOf — one copy
of a role name per occurrence of the display name in the actors array
of that role.  Hence, as a set, the roles are exactly the role names
under which the display name appeared, in first-seen order; they hold
no duplicates provided the display name occurs at most once per actors
array (role names themselves are distinct object keys), but an actor
listed twice in the same actors array contributes its role name
twice. -/
theorem C5_roles_exactly_roles_of_appearance (rds : List (String × ProjectRole))
    (d : String) (hd : d ≠ "") :
    (rolesAt (mergeMembers rds) d =
      (if (rolesOf rds d).isEmpty then none else some (rolesOf rds d))) ∧
    (∀ rn, rn ∈ rolesOf rds d ↔ ∃ p ∈ rds, p.1 = rn ∧ ∃ a ∈ p.2.actors, a.displayName = d) ∧
    ((rds.map Prod.fst).Nodup →
      (∀ p ∈ rds, (p.2.actors.filter (fun a => a.displayName = d)).length ≤ 1) →
      (rolesOf rds d).Nodup) := by
  refine ⟨by rw [rolesAt_mergeMembers rds hd, extendRoles_none], ?_, ?_⟩
  · intro rn
    simp only [rolesOf, List.mem_flatMap, mem_rolesOfRole]
  · intro hnames hcount
    rw [rolesOf, List.nodup_flatMap]
    constructor
    · intro p hp
      exact length_le_one_nodup (by simpa [rolesOfRole] using hcount p hp)
    · have hpw : rds.Pairwise (fun p q => p.1 ≠ q.1) := by
        rw [List.Nodup, List.pairwise_map] at hnames
        exact hnames
      refine hpw.imp (fun {p q} hne => ?_)
      simp only [Function.onFun, List.Disjoint]
      intro a hap haq
      rcases mem_rolesOfRole.mp hap with ⟨hp1, _⟩
      rcases mem_rolesOfRole.mp haq with ⟨hq1, _⟩
      exact hne (hp1.trans hq1.symm)

/-- Witness for C5 amended: Jane Doe appears in Administrators and
Developers, once each; her record lists exactly those two roles with no
duplicates. -/
theorem C5_roles_exactly_roles_of_appearance_witness :
    rolesAt (mergeMembers [adminRolePair, devRolePair]) "Jane Doe" =
      (if (rolesOf [adminRolePair, devRolePair] "Jane Doe").isEmpty then none
       else some (rolesOf [adminRolePair, devRolePair] "Jane Doe")) ∧
    ("Administrators" ∈ rolesOf [adminRolePair, devRolePair] "Jane Doe" ↔
      ∃ p ∈ [adminRolePair, devRolePair], p.1 = "Administrators" ∧
        ∃ a ∈ p.2.actors, a.displayName = "Jane Doe") ∧
    (rolesOf [adminRolePair, devRolePair] "Jane Doe").Nodup :=
  ⟨(C5_roles_exactly_roles_of_appearance [adminRolePair, devRolePair] "Jane Doe" (by decide)).1,
   (C5_roles_exactly_roles_of_appearance [adminRolePair, devRolePair] "Jane Doe" (by decide)).2.1
     "Administrators",
   (C5_roles_exactly_roles_of_appearance [adminRolePair, devRolePair] "Jane Doe" (by decide)).2.2
     (by decide) (by decide)⟩

theorem validateCredentials_ok {a b c : Option String}
    (h1 : jsTruthy a = true) (h2 : jsTruthy b = true) (h3 : jsTruthy c = true) :
    validateCredentials a b c = .ok () := by
  simp [validateCredentials, h1, h2, h3]

theorem GW.run_call_ok {resp : Except String α} {a : α} (c : UpstreamCall)
    (h : resp = .ok a) (l : EffLog) :
    GW.call c resp l = (.ok a, { l with calls := l.calls ++ [c] }) := by
  subst h; rfl

theorem GW.run_call_error {resp : Except String α} {e : String} (c : UpstreamCall)
    (h : resp = .error e) (l : EffLog) :
    GW.call c resp l = (.error e, { l with calls := l.calls ++ [c] }) := by
  subst h; rfl

theorem checkUserIssues_run (env : Env) (w : World) (args va : RawArgs) (l : EffLog)
    (hva : validateCheckUserIssuesSchema env args = .ok va)
    (h1 : jsTruthy (jsOr va.jiraHost env.jiraHost) = true)
    (h2 : jsTruthy (jsOr va.loginName env.loginName) = true)
    (h3 : jsTruthy (jsOr va.loginToken env.loginToken) = true) :
    checkUserIssues env w args l =
      checkUserCore w (normalizeJiraHost ((jsOr va.jiraHost env.jiraHost).getD ""))
        (va.projectKey.getD "") (va.userName.getD "") l := by
  unfold checkUserIssues
  rw [GW.run_bind_ok _ _ (GW.run_ofExcept_ok hva l)]
  simp only [h1, h2, h3, Bool.not_true, Bool.or_self, Bool.or_false, Bool.false_or,
    Bool.false_eq_true, if_false]
  rw [GW.run_bind_ok _ _ (GW.run_ofExcept_ok (validateCredentials_ok h1 h2 h3) l)]

theorem listProjectMembers_run (env : Env) (w : World) (args va : RawArgs) (l : EffLog)
    (hva : validateProjectMembersSchema env args = .ok va)
    (h1 : jsTruthy (jsOr va.jiraHost env.jiraHost) = true)
    (h2 : jsTruthy (jsOr va.loginName env.loginName) = true)
    (h3 : jsTruthy (jsOr va.loginToken env.loginToken) = true) :
    listProjectMembers env w args l =
      listProjectMembersCore w (normalizeJiraHost ((jsOr va.jiraHost env.jiraHost).getD ""))
        (va.projectKey.getD "") l := by
  unfold listProjectMembers
  rw [GW.run_bind_ok _ _ (GW.run_ofExcept_ok hva l)]
  simp only [h1, h2, h3, Bool.not_true, Bool.or_self, Bool.or_false, Bool.false_or,
    Bool.false_eq_true, if_false]
  rw [GW.run_bind_ok _ _ (GW.run_ofExcept_ok (validateCredentials_ok h1 h2 h3) l)]

/-- The role detail pairs obtained when every fanned-out request
succeeds, in registration order. -/
def okPairs (w : World) (host pk : String) : List (String × RoleUrlVal) → List (String × ProjectRole)
  | [] => []
  | (rn, .str u) :: rest =>
    (match w.roleDetail (roleDetailUrl host pk u) with
     | .ok d => [(rn, d)]
     | .error _ => []) ++ okPairs w host pk rest
  | (_, .other) :: rest => okPairs w host pk rest

/-- The gateway calls issued by the role detail fan-out, in
registration order. -/
def detailCalls (host pk : String) : List (String × RoleUrlVal) → List UpstreamCall
  | [] => []
  | (_, .str u) :: rest => .getRoleDetail (roleDetailUrl host pk u) :: detailCalls host pk rest
  | (_, .other) :: rest => detailCalls host pk rest

theorem fetchRoleDetails_error (w : World) (host pk : String) :
    ∀ (es : List (String × RoleUrlVal)) (l : EffLog),
      (∃ p ∈ es, ∃ u, p.2 = RoleUrlVal.str u ∧
        ∃ e, w.roleDetail (roleDetailUrl host pk u) = .error e) →
      ∃ e l', fetchRoleDetails w host pk es l = (.error e, l') := by
  intro es
  induction es with
  | nil => intro l h; simp at h
  | cons p es ih =>
    intro l h
    rcases p with ⟨rn, val⟩
    cases val with
    | str u =>
      rcases hres : w.roleDetail (roleDetailUrl host pk u) with e | d
      · refine ⟨e, { l with calls := l.calls ++ [.getRoleDetail (roleDetailUrl host pk u)] }, ?_⟩
        show (GW.call (.getRoleDetail (roleDetailUrl host pk u))
          (w.roleDetail (roleDetailUrl host pk u)) >>= _) l = _
        rw [GW.run_bind_error _ _ (GW.run_call_error _ hres l)]
      · have htail : ∃ q ∈ es, ∃ u', q.2 = RoleUrlVal.str u' ∧
            ∃ e, w.roleDetail (roleDetailUrl host pk u') = .error e := by
          rcases h with ⟨q, hq, u', hstr, e, he⟩
          rcases List.mem_cons.mp hq with hq | hq
          · subst hq
            simp only at hstr
            rcases RoleUrlVal.str.inj hstr with rfl
            rw [hres] at he
            exact absurd he (by simp)
          · exact ⟨q, hq, u', hstr, e, he⟩
        rcases ih { l with calls := l.calls ++ [.getRoleDetail (roleDetailUrl host pk u)] } htail
          with ⟨e, l', hfetch⟩
        refine ⟨e, l', ?_⟩
        show (GW.call (.getRoleDetail (roleDetailUrl host pk u))
          (w.roleDetail (roleDetailUrl host pk u)) >>= _) l = _
        rw [GW.run_bind_ok _ _ (GW.run_call_ok _ hres l),
          GW.run_bind_error _ _ hfetch]
    | other =>
      have htail : ∃ q ∈ es, ∃ u', q.2 = RoleUrlVal.str u' ∧
          ∃ e, w.roleDetail (roleDetailUrl host pk u') = .error e := by
        rcases h with ⟨q, hq, u', hstr, e, he⟩
        rcases List.mem_cons.mp hq with hq | hq
        · subst hq; simp at hstr
        · exact ⟨q, hq, u', hstr, e, he⟩
      rcases ih l htail with ⟨e, l', hfetch⟩
      exact ⟨e, l', hfetch⟩

theorem fetchRoleDetails_ok (w : World) (host pk : String) :
    ∀ (es : List (String × RoleUrlVal)) (l : EffLog),
      (∀ p ∈ es, ∀ u, p.2 = RoleUrlVal.str u →
        ∃ d, w.roleDetail (roleDetailUrl host pk u) = .ok d) →
      fetchRoleDetails w host pk es l =
        (.ok (okPairs w host pk es), { l with calls := l.calls ++ detailCalls host pk es }) := by
  intro es
  induction es with
  | nil => intro l _; simp [fetchRoleDetails, okPairs, detailCalls, GW.run_pure]
  | cons p es ih =>
    intro l hok
    rcases p with ⟨rn, val⟩
    cases val with
    | str u =>
      rcases hok (rn, .str u) (by simp) u rfl with ⟨d, hd⟩
      have htail : ∀ p ∈ es, ∀ u, p.2 = RoleUrlVal.str u →
          ∃ d, w.roleDetail (roleDetailUrl host pk u) = .ok d :=
        fun q hq u' hstr => hok q (by simp [hq]) u' hstr
      show (GW.call (.getRoleDetail (roleDetailUrl host pk u))
        (w.roleDetail (roleDetailUrl host pk u)) >>= _) l = _
      rw [GW.run_bind_ok _ _ (GW.run_call_ok _ hd l),
        GW.run_bind_ok _ _ (ih _ htail)]
      simp [okPairs, detailCalls, hd, GW.run_pure, List.append_assoc]
    | other =>
      have htail : ∀ p ∈ es, ∀ u, p.2 = RoleUrlVal.str u →
          ∃ d, w.roleDetail (roleDetailUrl host pk u) = .ok d :=
        fun q hq u' hstr => hok q (by simp [hq]) u' hstr
      show fetchRoleDetails w host pk es l = _
      rw [ih l htail]
      simp [okPairs, detailCalls]

theorem listProjectMembersCore_error (w : World) (host pk : String) (l : EffLog)
    {es : List (String × RoleUrlVal)}
    (hroles : w.projectRoles (projectRolesUrl host pk) = .ok es)
    (hlen : 0 < es.length)
    (hfail : ∃ p ∈ es, ∃ u, p.2 = RoleUrlVal.str u ∧
      ∃ e, w.roleDetail (roleDetailUrl host pk u) = .error e) :
    ∃ e l', listProjectMembersCore w host pk l = (.error e, l') := by
  rcases fetchRoleDetails_error w host pk es
    { l with calls := l.calls ++ [.getProjectRoles (projectRolesUrl host pk)] } hfail
    with ⟨e, l', hf⟩
  refine ⟨e, l', ?_⟩
  unfold listProjectMembersCore
  rw [GW.run_bind_ok _ _ (GW.run_call_ok _ hroles l)]
  simp only [hlen, if_true]
  rw [GW.run_bind_error _ _ hf]

theorem checkUserCore_error (w : World) (host pk un : String) (l : EffLog)
    {es : List (String × RoleUrlVal)}
    (hroles : w.projectRoles (projectRolesUrl host pk) = .ok es)
    (hlen : 0 < es.length)
    (hfail : ∃ p ∈ es, ∃ u, p.2 = RoleUrlVal.str u ∧
      ∃ e, w.roleDetail (roleDetailUrl host pk u) = .error e) :
    ∃ e l', checkUserCore w host pk un l = (.error e, l') := by
  rcases fetchRoleDetails_error w host pk es
    { l with calls := l.calls ++ [.getProjectRoles (projectRolesUrl host pk)] } hfail
    with ⟨e, l', hf⟩
  refine ⟨e, l', ?_⟩
  unfold checkUserCore
  rw [GW.run_bind_ok _ _ (GW.run_call_ok _ hroles l)]
  simp only [hlen, if_true]
  rw [GW.run_bind_error _ _ hf]

/-- C2: In the role aggregation shared by list-project-members and
check-user-issues, a failure of any single role detail request makes
the whole handler call throw (the exception reaches the dispatcher):
neither tool produces a partial member list.  There is no per-role
fallback merging the roles that did succeed. -/
theorem C2_role_detail_failure_aborts (env : Env) (w : World) (args va vb : RawArgs)
    (l : EffLog) (host pk : String) (es : List (String × RoleUrlVal))
    (hva : validateProjectMembersSchema env args = .ok va)
    (hvb : validateCheckUserIssuesSchema env args = .ok vb)
    (ha1 : jsTruthy (jsOr va.jiraHost env.jiraHost) = true)
    (ha2 : jsTruthy (jsOr va.loginName env.loginName) = true)
    (ha3 : jsTruthy (jsOr va.loginToken env.loginToken) = true)
    (hb1 : jsTruthy (jsOr vb.jiraHost env.jiraHost) = true)
    (hb2 : jsTruthy (jsOr vb.loginName env.loginName) = true)
    (hb3 : jsTruthy (jsOr vb.loginToken env.loginToken) = true)
    (hhostA : normalizeJiraHost ((jsOr va.jiraHost env.jiraHost).getD "") = host)
    (hhostB : normalizeJiraHost ((jsOr vb.jiraHost env.jiraHost).getD "") = host)
    (hpkA : va.projectKey.getD "" = pk)
    (hpkB : vb.projectKey.getD "" = pk)
    (hroles : w.projectRoles (projectRolesUrl host pk) = .ok es)
    (hlen : 0 < es.length)
    (hfail : ∃ p ∈ es, ∃ u, p.2 = RoleUrlVal.str u ∧
      ∃ e, w.roleDetail (roleDetailUrl host pk u) = .error e) :
    (∃ e l', listProjectMembers env w args l = (.error e, l')) ∧
    (∃ e l', checkUserIssues env w args l = (.error e, l')) := by
  constructor
  · rw [listProjectMembers_run env w args va l hva ha1 ha2 ha3, hhostA, hpkA]
    exact listProjectMembersCore_error w host pk l hroles hlen hfail
  · rw [checkUserIssues_run env w args vb l hvb hb1 hb2 hb3, hhostB, hpkB]
    exact checkUserCore_error w host pk (vb.userName.getD "") l hroles hlen hfail

/-- A world in which the role map has two roles and the Developers role
detail request fails. -/
def c2World : World :=
  { offlineWorld with
    projectRoles := fun _ =>
      .ok [("Administrators", .str "https://x/role/1"), ("Developers", .str "https://x/role/2")]
    roleDetail := fun u =>
      if u = "https://jira.example.com/rest/api/3/project/PROJ/role/1" then
        .ok { actors := [janeActor] }
      else .error "role detail 500" }

/-- Witness for C2: with one failing role detail, both tools throw. -/
theorem C2_role_detail_failure_aborts_witness :
    (∃ e l', listProjectMembers sampleEnv c2World wellFormedCheckArgs emptyLog = (.error e, l')) ∧
    (∃ e l', checkUserIssues sampleEnv c2World wellFormedCheckArgs emptyLog = (.error e, l')) :=
  C2_role_detail_failure_aborts sampleEnv c2World wellFormedCheckArgs
    wellFormedCheckArgs wellFormedCheckArgs emptyLog
    "https://jira.example.com" "PROJ"
    [("Administrators", .str "https://x/role/1"), ("Developers", .str "https://x/role/2")]
    (by decide) (by decide) (by decide) (by decide) (by decide)
    (by decide) (by decide) (by decide) (by decide) (by decide)
    (by decide) (by decide) (by decide) (by decide)
    ⟨("Developers", .str "https://x/role/2"), by decide, "https://x/role/2", rfl,
      "role detail 500", by decide⟩

theorem mem_rolesOf {rds : List (String × ProjectRole)} {d rn : String} :
    rn ∈ rolesOf rds d ↔ ∃ p ∈ rds, p.1 = rn ∧ ∃ a ∈ p.2.actors, a.displayName = d := by
  simp only [rolesOf, List.mem_flatMap, mem_rolesOfRole]

theorem rolesOf_ne_nil_iff {rds : List (String × ProjectRole)} {d : String} :
    rolesOf rds d ≠ [] ↔ ∃ p ∈ rds, ∃ a ∈ p.2.actors, a.displayName = d := by
  constructor
  · intro h
    rcases List.exists_mem_of_ne_nil _ h with ⟨rn, hrn⟩
    rcases mem_rolesOf.mp hrn with ⟨p, hp, _, a, ha, hd⟩
    exact ⟨p, hp, a, ha, hd⟩
  · rintro ⟨p, hp, a, ha, hd⟩
    have : p.1 ∈ rolesOf rds d := mem_rolesOf.mpr ⟨p, hp, rfl, a, ha, hd⟩
    exact List.ne_nil_of_mem this

theorem record_exists_iff (rds : List (String × ProjectRole)) {d : String} (hd : d ≠ "") :
    (∃ r ∈ mergeMembers rds, r.displayName = d) ↔
      ∃ p ∈ rds, ∃ a ∈ p.2.actors, a.displayName = d := by
  rw [← rolesAt_isSome, rolesAt_mergeMembers rds hd, extendRoles_none, ← rolesOf_ne_nil_iff]
  by_cases h : (rolesOf rds d).isEmpty
  · simp [h, List.isEmpty_iff.mp h]
  · have : rolesOf rds d ≠ [] := by
      intro hc
      exact h (by simp [hc])
    simp [h, this]

theorem addActor_names (rn : String) (m : List MemberRecord) (a : RoleActor)
    (h : ∀ r ∈ m, r.displayName ≠ "") :
    ∀ r ∈ addActor rn m a, r.displayName ≠ "" := by
  intro r hr
  unfold addActor at hr
  by_cases ha : a.displayName = ""
  · rw [if_pos ha] at hr
    exact h r hr
  · rw [if_neg ha] at hr
    by_cases hany : m.any (fun r => r.displayName = a.displayName)
    · rw [if_pos hany] at hr
      rcases List.mem_map.mp hr with ⟨r0, hr0, heq⟩
      have : r.displayName = r0.displayName := by
        subst heq
        by_cases h0 : r0.displayName = a.displayName <;> simp [h0]
      rw [this]
      exact h r0 hr0
    · rw [if_neg hany] at hr
      rcases List.mem_append.mp hr with hr | hr
      · exact h r hr
      · have hrq : r = { displayName := a.displayName, type := a.type, email := jsStrOr a.emailAddress "N/A", roles := [rn] } := by simpa using hr
        rw [hrq]
        exact ha

theorem foldl_addActor_names (rn : String) (as : List RoleActor) :
    ∀ m : List MemberRecord, (∀ r ∈ m, r.displayName ≠ "") →
      ∀ r ∈ as.foldl (addActor rn) m, r.displayName ≠ "" := by
  induction as with
  | nil => intro m h; exact h
  | cons a as ih =>
    intro m h
    exact ih (addActor rn m a) (addActor_names rn m a h)

theorem mergeMembers_names (rds : List (String × ProjectRole)) :
    ∀ r ∈ mergeMembers rds, r.displayName ≠ "" := by
  unfold mergeMembers
  suffices h : ∀ m : List MemberRecord, (∀ r ∈ m, r.displayName ≠ "") →
      ∀ r ∈ rds.foldl addRoleActors m, r.displayName ≠ "" by
    exact h [] (by simp)
  induction rds with
  | nil => intro m h; exact h
  | cons p rds ih =>
    intro m h
    refine ih (addRoleActors m p) ?_
    unfold addRoleActors
    by_cases hl : p.2.actors.length > 0
    · rw [if_pos hl]
      exact foldl_addActor_names p.1 p.2.actors m h
    · rw [if_neg hl]
      exact h

theorem userFoundIn_iff (rds : List (String × ProjectRole)) (un : String) :
    userFoundIn rds un = true ↔
      ∃ r ∈ mergeMembers rds, jsToLower r.displayName = jsToLower un := by
  simp only [userFoundIn, List.any_eq_true, Bool.and_eq_true, decide_eq_true_eq,
    ne_eq, Bool.not_eq_true, decide_eq_false_iff_not]
  constructor
  · rintro ⟨p, hp, a, ha, hne, hlow⟩
    rcases (record_exists_iff rds hne).mpr ⟨p, hp, a, ha, rfl⟩ with ⟨r, hr, heq⟩
    refine ⟨r, hr, ?_⟩
    rw [heq]
    exact hlow
  · rintro ⟨r, hr, hlow⟩
    have hne : r.displayName ≠ "" := mergeMembers_names rds r hr
    rcases (record_exists_iff rds hne).mp ⟨r, hr, rfl⟩ with ⟨p, hp, a, ha, hda⟩
    refine ⟨p, hp, a, ha, ?_, ?_⟩
    · rw [hda]
      exact hne
    · rw [hda]
      exact hlow

theorem checkUserFoundSection_run (w : World) (host pk un : String)
    (members : List MemberRecord) (l : EffLog) {io : Option (List Issue)}
    (hsearch : w.search (buildUserIssuesJql pk un) = .ok io) :
    checkUserFoundSection w host pk un members l =
      (.ok (foundSectionText w pk un members io), { l with calls := l.calls ++
        [.searchCall (buildUserIssuesJql pk un) 50 checkUserSearchFields] }) := by
  unfold checkUserFoundSection
  rw [GW.run_bind_ok _ _ (GW.run_call_ok _ hsearch l)]
  rfl

theorem checkUserCore_empty_roles (w : World) (host pk un : String) (l : EffLog)
    (hroles : w.projectRoles (projectRolesUrl host pk) = .ok ([] : List (String × RoleUrlVal))) :
    checkUserCore w host pk un l = (.ok (mkResult (checkHeaderText un pk ++
      "⚠️ No project roles found. Unable to determine project membership.") false),
      { l with calls := l.calls ++ [.getProjectRoles (projectRolesUrl host pk)] }) := by
  unfold checkUserCore
  rw [GW.run_bind_ok _ _ (GW.run_call_ok _ hroles l)]
  rfl

theorem checkUserCore_not_found (w : World) (host pk un : String) (l : EffLog)
    {es : List (String × RoleUrlVal)}
    (hroles : w.projectRoles (projectRolesUrl host pk) = .ok es)
    (hlen : 0 < es.length)
    (hok : ∀ p ∈ es, ∀ u, p.2 = RoleUrlVal.str u →
      ∃ d, w.roleDetail (roleDetailUrl host pk u) = .ok d)
    (hnf : userFoundIn (okPairs w host pk es) un = false) :
    checkUserCore w host pk un l = (.ok (mkResult (checkStep1Text un pk ++
      notFoundMembersText un pk (mergeMembers (okPairs w host pk es))) false),
      { l with calls := l.calls ++ [.getProjectRoles (projectRolesUrl host pk)]
        ++ detailCalls host pk es }) := by
  unfold checkUserCore
  rw [GW.run_bind_ok _ _ (GW.run_call_ok _ hroles l)]
  simp only [hlen, if_true]
  rw [GW.run_bind_ok _ _ (fetchRoleDetails_ok w host pk es _ hok),
    if_neg (by simp [hnf])]
  rfl

theorem checkUserCore_found (w : World) (host pk un : String) (l : EffLog)
    {es : List (String × RoleUrlVal)} {io : Option (List Issue)}
    (hroles : w.projectRoles (projectRolesUrl host pk) = .ok es)
    (hlen : 0 < es.length)
    (hok : ∀ p ∈ es, ∀ u, p.2 = RoleUrlVal.str u →
      ∃ d, w.roleDetail (roleDetailUrl host pk u) = .ok d)
    (hf : userFoundIn (okPairs w host pk es) un = true)
    (hsearch : w.search (buildUserIssuesJql pk un) = .ok io) :
    checkUserCore w host pk un l = (.ok (mkResult (checkStep1Text un pk ++
      foundSectionText w pk un (mergeMembers (okPairs w host pk es)) io) false),
      { l with calls := l.calls ++ [.getProjectRoles (projectRolesUrl host pk)]
        ++ detailCalls host pk es
        ++ [.searchCall (buildUserIssuesJql pk un) 50 checkUserSearchFields] }) := by
  have hsec := checkUserFoundSection_run w host pk un (mergeMembers (okPairs w host pk es))
    { l with calls := l.calls ++ [.getProjectRoles (projectRolesUrl host pk)]
      ++ detailCalls host pk es } hsearch
  unfold checkUserCore
  rw [GW.run_bind_ok _ _ (GW.run_call_ok _ hroles l)]
  simp only [hlen, if_true]
  rw [GW.run_bind_ok _ _ (fetchRoleDetails_ok w host pk es _ hok),
    if_pos (by simp [hf]), GW.run_bind_ok _ _ hsec]
  rfl

/-- C6, amended: when the merged member set contains a record whose
display name equals the requested userName case-insensitively, the
membership flag is set, the call succeeds with isError false, and the
second-stage issue query is issued once with maxResults 50, the fixed
field projection and the JQL ordered by created DESC built from the
caller-provided userName in its input casing (the code interpolates
userName, not the stored original-casing display name). -/
theorem C6_found_queries_input_casing (env : Env) (w : World) (args va : RawArgs)
    (l : EffLog) (host pk un : String) (es : List (String × RoleUrlVal))
    (io : Option (List Issue))
    (hva : validateCheckUserIssuesSchema env args = .ok va)
    (h1 : jsTruthy (jsOr va.jiraHost env.jiraHost) = true)
    (h2 : jsTruthy (jsOr va.loginName env.loginName) = true)
    (h3 : jsTruthy (jsOr va.loginToken env.loginToken) = true)
    (hhost : normalizeJiraHost ((jsOr va.jiraHost env.jiraHost).getD "") = host)
    (hpk : va.projectKey.getD "" = pk)
    (hun : va.userName.getD "" = un)
    (hroles : w.projectRoles (projectRolesUrl host pk) = .ok es)
    (hlen : 0 < es.length)
    (hok : ∀ p ∈ es, ∀ u, p.2 = RoleUrlVal.str u →
      ∃ d, w.roleDetail (roleDetailUrl host pk u) = .ok d)
    (hfound : ∃ r ∈ mergeMembers (okPairs w host pk es),
      jsToLower r.displayName = jsToLower un)
    (hsearch : w.search (buildUserIssuesJql pk un) = .ok io) :
    userFoundIn (okPairs w host pk es) un = true ∧
    checkUserIssues env w args l = (.ok (mkResult (checkStep1Text un pk ++
      foundSectionText w pk un (mergeMembers (okPairs w host pk es)) io) false),
      { l with calls := l.calls ++ [.getProjectRoles (projectRolesUrl host pk)]
        ++ detailCalls host pk es
        ++ [.searchCall (buildUserIssuesJql pk un) 50 checkUserSearchFields] }) ∧
    UpstreamCall.searchCall (buildUserIssuesJql pk un) 50 checkUserSearchFields
      ∈ (checkUserIssues env w args l).2.calls := by
  have hf : userFoundIn (okPairs w host pk es) un = true :=
    (userFoundIn_iff (okPairs w host pk es) un).mpr hfound
  have hrun : checkUserIssues env w args l = (.ok (mkResult (checkStep1Text un pk ++
      foundSectionText w pk un (mergeMembers (okPairs w host pk es)) io) false),
      { l with calls := l.calls ++ [.getProjectRoles (projectRolesUrl host pk)]
        ++ detailCalls host pk es
        ++ [.searchCall (buildUserIssuesJql pk un) 50 checkUserSearchFields] }) := by
    rw [checkUserIssues_run env w args va l hva h1 h2 h3, hhost, hpk, hun]
    exact checkUserCore_found w host pk un l hroles hlen hok hf hsearch
  refine ⟨hf, hrun, ?_⟩
  rw [hrun]
  simp

/-- The role map entries of the C6 scenario. -/
def c6Entries : List (String × RoleUrlVal) :=
  [("Administrators", .str "https://x/role/1")]

/-- A world holding one role whose only actor is Jane Doe, with an
always-succeeding empty search. -/
def c6World : World :=
  { offlineWorld with
    projectRoles := fun _ => .ok c6Entries
    roleDetail := fun _ => .ok { actors := [janeActor] }
    search := fun _ => .ok (some []) }

/-- Counterexample to C6 as stated: the member is stored as Jane Doe
while the caller passes jane doe; the second-stage query is issued with
the JQL built from the caller input casing, and no query with the
stored original casing is ever issued, although the two JQL strings
differ. -/
theorem C6_counterexample :
    UpstreamCall.searchCall (buildUserIssuesJql "PROJ" "jane doe") 50 checkUserSearchFields
      ∈ (checkUserIssues sampleEnv c6World wellFormedCheckArgs emptyLog).2.calls ∧
    UpstreamCall.searchCall (buildUserIssuesJql "PROJ" "Jane Doe") 50 checkUserSearchFields
      ∉ (checkUserIssues sampleEnv c6World wellFormedCheckArgs emptyLog).2.calls ∧
    buildUserIssuesJql "PROJ" "jane doe" ≠ buildUserIssuesJql "PROJ" "Jane Doe" := by
  decide

/-- Witness for C6 amended, at the concrete scenario of the
counterexample world. -/
theorem C6_found_queries_input_casing_witness :
    userFoundIn (okPairs c6World "https://jira.example.com" "PROJ" c6Entries) "jane doe" = true ∧
    checkUserIssues sampleEnv c6World wellFormedCheckArgs emptyLog =
      (.ok (mkResult (checkStep1Text "jane doe" "PROJ" ++
        foundSectionText c6World "PROJ" "jane doe"
          (mergeMembers (okPairs c6World "https://jira.example.com" "PROJ" c6Entries))
          (some [])) false),
       { emptyLog with calls := emptyLog.calls
          ++ [.getProjectRoles (projectRolesUrl "https://jira.example.com" "PROJ")]
          ++ detailCalls "https://jira.example.com" "PROJ" c6Entries
          ++ [.searchCall (buildUserIssuesJql "PROJ" "jane doe") 50 checkUserSearchFields] }) ∧
    UpstreamCall.searchCall (buildUserIssuesJql "PROJ" "jane doe") 50 checkUserSearchFields
      ∈ (checkUserIssues sampleEnv c6World wellFormedCheckArgs emptyLog).2.calls :=
  C6_found_queries_input_casing sampleEnv c6World wellFormedCheckArgs wellFormedCheckArgs
    emptyLog "https://jira.example.com" "PROJ" "jane doe" c6Entries (some [])
    (by decide) (by decide) (by decide) (by decide) (by decide) (by decide) (by decide)
    (by decide) (by decide)
    (by intro p hp u hstr
        exact ⟨{ actors := [janeActor] }, rfl⟩)
    ⟨{ displayName := "Jane Doe", type := "atlassian-user-role-actor", email := "N/A", roles := ["Administrators"] }, by decide, by decide⟩
    (by decide)

/-- C10: a check-user-issues invocation whose upstream calls succeed
returns isError false even on negative outcomes: the empty role map
outcome renders the no-roles warning, and the user-not-member outcome
renders the available-members listing, both inside a success
envelope. -/
theorem C10_negative_outcomes_not_errors (env : Env) (w : World) (args va : RawArgs)
    (l : EffLog) (host pk un : String) (es : List (String × RoleUrlVal))
    (hva : validateCheckUserIssuesSchema env args = .ok va)
    (h1 : jsTruthy (jsOr va.jiraHost env.jiraHost) = true)
    (h2 : jsTruthy (jsOr va.loginName env.loginName) = true)
    (h3 : jsTruthy (jsOr va.loginToken env.loginToken) = true)
    (hhost : normalizeJiraHost ((jsOr va.jiraHost env.jiraHost).getD "") = host)
    (hpk : va.projectKey.getD "" = pk)
    (hun : va.userName.getD "" = un) :
    (w.projectRoles (projectRolesUrl host pk) = .ok ([] : List (String × RoleUrlVal)) →
      checkUserIssues env w args l = (.ok (mkResult (checkHeaderText un pk ++
        "⚠️ No project roles found. Unable to determine project membership.") false),
        { l with calls := l.calls ++ [.getProjectRoles (projectRolesUrl host pk)] })) ∧
    (w.projectRoles (projectRolesUrl host pk) = .ok es → 0 < es.length →
      (∀ p ∈ es, ∀ u, p.2 = RoleUrlVal.str u →
        ∃ d, w.roleDetail (roleDetailUrl host pk u) = .ok d) →
      userFoundIn (okPairs w host pk es) un = false →
      checkUserIssues env w args l = (.ok (mkResult (checkStep1Text un pk ++
        notFoundMembersText un pk (mergeMembers (okPairs w host pk es))) false),
        { l with calls := l.calls ++ [.getProjectRoles (projectRolesUrl host pk)]
          ++ detailCalls host pk es })) := by
  constructor
  · intro hroles
    rw [checkUserIssues_run env w args va l hva h1 h2 h3, hhost, hpk, hun]
    exact checkUserCore_empty_roles w host pk un l hroles
  · intro hroles hlen hok hnf
    rw [checkUserIssues_run env w args va l hva h1 h2 h3, hhost, hpk, hun]
    exact checkUserCore_not_found w host pk un l hroles hlen hok hnf

/-- A world whose role map is empty. -/
def emptyRolesWorld : World :=
  { offlineWorld with projectRoles := fun _ => .ok [] }

/-- A world with one role whose only actor is Bob, so jane doe is not a
member. -/
def c10World : World :=
  { offlineWorld with
    projectRoles := fun _ => .ok c6Entries
    roleDetail := fun _ => .ok { actors := [bobActor] } }

/-- Witness for C10: both negative outcomes at concrete worlds. -/
theorem C10_negative_outcomes_not_errors_witness :
    checkUserIssues sampleEnv emptyRolesWorld wellFormedCheckArgs emptyLog =
      (.ok (mkResult (checkHeaderText "jane doe" "PROJ" ++
        "⚠️ No project roles found. Unable to determine project membership.") false),
       { emptyLog with calls := emptyLog.calls
          ++ [.getProjectRoles (projectRolesUrl "https://jira.example.com" "PROJ")] }) ∧
    checkUserIssues sampleEnv c10World wellFormedCheckArgs emptyLog =
      (.ok (mkResult (checkStep1Text "jane doe" "PROJ" ++
        notFoundMembersText "jane doe" "PROJ"
          (mergeMembers (okPairs c10World "https://jira.example.com" "PROJ" c6Entries))) false),
       { emptyLog with calls := emptyLog.calls
          ++ [.getProjectRoles (projectRolesUrl "https://jira.example.com" "PROJ")]
          ++ detailCalls "https://jira.example.com" "PROJ" c6Entries }) :=
  ⟨(C10_negative_outcomes_not_errors sampleEnv emptyRolesWorld wellFormedCheckArgs
      wellFormedCheckArgs emptyLog "https://jira.example.com" "PROJ" "jane doe" []
      (by decide) (by decide) (by decide) (by decide) (by decide) (by decide) (by decide)).1
      (by decide),
   (C10_negative_outcomes_not_errors sampleEnv c10World wellFormedCheckArgs
      wellFormedCheckArgs emptyLog "https://jira.example.com" "PROJ" "jane doe" c6Entries
      (by decide) (by decide) (by decide) (by decide) (by decide) (by decide) (by decide)).2
      (by decide) (by decide)
      (by intro p hp u hstr
          exact ⟨{ actors := [bobActor] }, rfl⟩)
      (by decide)⟩

/-- Modelled from the claim wording, for comparison with the code: a
record would be excluded exactly when its type marks a non-human
integration actor and its display name does not contain one of the
organization-identifying substrings. -/
def claimExcludedFromListing (m : MemberRecord) : Bool :=
  m.type = "atlassian-user-role-actor" &&
    !(strContains m.displayName "for Jira" || strContains m.displayName "Atlassian")

/-- A human member with no app-marker substring in the name. -/
def aliceActor : RoleActor :=
  { displayName := "Alice", type := "atlassian-user-role-actor", emailAddress := none }

/-- An app account whose name carries the for-Jira marker. -/
def helperActor : RoleActor :=
  { displayName := "Helper for Jira", type := "atlassian-user-role-actor", emailAddress := none }

/-- A world with one role listing Alice and the app account, and no
actor matching the requested user. -/
def c9World : World :=
  { offlineWorld with
    projectRoles := fun _ => .ok c6Entries
    roleDetail := fun _ => .ok { actors := [aliceActor, helperActor] } }

/-- The member set the C9 scenario merges. -/
def c9Members : List MemberRecord :=
  mergeMembers (okPairs c9World "https://jira.example.com" "PROJ" c6Entries)

/-- Counterexample to C9 as stated: the rendered not-found listing is
not the list the claim describes.  Alice (marked type, no
organization-identifying substring) is excluded by the claim but
rendered by the code, while the for-Jira app account (marked type,
contains the substring) is kept by the claim but dropped by the
code. -/
theorem C9_counterexample :
    c9Members.filter includeMemberInListing ≠
      c9Members.filter (fun m => !claimExcludedFromListing m) ∧
    (∃ m ∈ c9Members, m.displayName = "Alice" ∧
      includeMemberInListing m = true ∧ claimExcludedFromListing m = true) ∧
    (∃ m ∈ c9Members, m.displayName = "Helper for Jira" ∧
      includeMemberInListing m = false ∧ claimExcludedFromListing m = false) ∧
    strContains (notFoundMembersText "jane doe" "PROJ" c9Members) "| Alice |" = true ∧
    strContains (notFoundMembersText "jane doe" "PROJ" c9Members) "Helper for Jira" = false := by
  set_option maxRecDepth 4000 in decide

/-- C9, amended: the rendered not-found listing contains exactly the
merged records except those whose type is the user-role-actor type and
whose display name does contain one of the two app-marker substrings
(for Jira, Atlassian); the listing body is the row rendering of that
filter. -/
theorem C9_listing_filter (un pk : String) (ms : List MemberRecord) (m : MemberRecord) :
    (m ∈ ms.filter includeMemberInListing ↔ m ∈ ms ∧
      ¬(m.type = "atlassian-user-role-actor" ∧
        (strContains m.displayName "for Jira" = true ∨
          strContains m.displayName "Atlassian" = true))) ∧
    notFoundMembersText un pk ms =
      "❌ User \"" ++ un ++ "\" is NOT a member of project \"" ++ pk ++
        "\". No issues will be fetched.\n\n" ++
        "### Available Project Members:\n\n" ++
        "| Name | Roles |\n" ++
        "|------|-------|\n" ++
        String.join ((ms.filter includeMemberInListing).map availableMemberRow) := by
  constructor
  · rw [List.mem_filter]
    constructor
    · rintro ⟨hm, hinc⟩
      refine ⟨hm, ?_⟩
      simp only [includeMemberInListing, Bool.or_eq_true, Bool.and_eq_true,
        Bool.not_eq_true', Bool.or_eq_false_iff, decide_eq_true_eq, ne_eq,
        decide_eq_false_iff_not] at hinc
      rcases hinc with hty | ⟨hc1, hc2⟩
      · rintro ⟨hty2, _⟩
        exact hty hty2
      · rintro ⟨_, hc | hc⟩
        · rw [hc1] at hc
          cases hc
        · rw [hc2] at hc
          cases hc
    · rintro ⟨hm, hnot⟩
      refine ⟨hm, ?_⟩
      simp only [includeMemberInListing, Bool.or_eq_true, Bool.and_eq_true,
        Bool.not_eq_true', Bool.or_eq_false_iff, decide_eq_true_eq, ne_eq,
        decide_eq_false_iff_not]
      by_cases hty : m.type = "atlassian-user-role-actor"
      · right
        constructor
        · rcases hc : strContains m.displayName "for Jira" with _ | _
          · rfl
          · exact absurd ⟨hty, Or.inl hc⟩ hnot
        · rcases hc : strContains m.displayName "Atlassian" with _ | _
          · rfl
          · exact absurd ⟨hty, Or.inr hc⟩ hnot
      · exact Or.inl hty
  · rfl

/-- C8: the sprint sort orders the merged sprints descending by start
date, a sprint without a start date taking the key 0 (the epoch) and
hence sorting as oldest; the output is a permutation of the input. -/
theorem C8_sprint_sort_descending (w : World) (l : List TaggedSprint) :
    (sortSprints w l).Perm l ∧
    List.Pairwise (fun a b => sprintTime w b ≤ sprintTime w a) (sortSprints w l) ∧
    (∀ s : TaggedSprint, s.sprint.startDate = none → sprintTime w s = 0) := by
  refine ⟨List.mergeSort_perm l _, ?_, fun s h => by simp [sprintTime, h]⟩
  have h := @List.sorted_mergeSort TaggedSprint
    (fun a b : TaggedSprint => decide (sprintTime w b ≤ sprintTime w a))
    (fun a b c hab hbc => by
      simp only [decide_eq_true_eq] at hab hbc ⊢
      exact Nat.le_trans hbc hab)
    (fun a b => by
      simp only [Bool.or_eq_true, decide_eq_true_eq]
      exact Nat.le_total (sprintTime w b) (sprintTime w a)) l
  exact h.imp (by simp)

/-- The sprints the per-board loop accumulates: for every board in
order, the tagged sprints of its response when it succeeds, nothing
when it fails or has no values array. -/
def collectedSprints (w : World) (state : String) (bIds : List String) : List TaggedSprint :=
  bIds.flatMap (fun b =>
    match w.boardSprints b (stateParam state) with
    | .ok (some sprints) => sprints.map (fun s => { sprint := s, boardId := b })
    | .ok none => []
    | .error _ => [])

/-- The gateway calls issued by the per-board loop, one per board. -/
def boardSprintCalls (state : String) (bIds : List String) : List UpstreamCall :=
  bIds.map (fun b => .getBoardSprints b (stateParam state))

/-- The console warnings emitted by the per-board loop, one per failing
board. -/
def boardSprintWarnings (w : World) (state : String) (bIds : List String) : List String :=
  bIds.filterMap (fun b =>
    match w.boardSprints b (stateParam state) with
    | .ok _ => none
    | .error _ => some ("Could not fetch sprints for board " ++ b))

theorem sprintBatch_run (w : World) (state b : String) (l : EffLog) :
    GW.tryCatch
      (do
        let values ← GW.call (.getBoardSprints b (stateParam state))
          (w.boardSprints b (stateParam state))
        match values with
        | some sprints =>
          if sprints.length > 0 then
            pure (sprints.map (fun s => { sprint := s, boardId := b }))
          else
            pure []
        | none => pure [])
      (fun _ => do
        GW.warn ("Could not fetch sprints for board " ++ b)
        pure []) l =
    (.ok (match w.boardSprints b (stateParam state) with
          | .ok (some sprints) => sprints.map (fun s => ({ sprint := s, boardId := b } : TaggedSprint))
          | .ok none => []
          | .error _ => []),
     { calls := l.calls ++ [.getBoardSprints b (stateParam state)],
       warnings := l.warnings ++ (match w.boardSprints b (stateParam state) with
         | .ok _ => []
         | .error _ => ["Could not fetch sprints for board " ++ b]) }) := by
  rcases hres : w.boardSprints b (stateParam state) with e | io
  · simp [GW.tryCatch, Bind.bind, GW.bind', GW.call, Pure.pure, GW.pure', GW.warn, hres]
  · rcases io with _ | sprints
    · simp [GW.tryCatch, Bind.bind, GW.bind', GW.call, Pure.pure, GW.pure', hres]
    · by_cases hlen : sprints.length > 0
      · simp [GW.tryCatch, Bind.bind, GW.bind', GW.call, Pure.pure, GW.pure', hres, hlen]
      · have hnil : sprints = [] := by
          cases sprints with
          | nil => rfl
          | cons x xs => simp at hlen
        subst hnil
        simp [GW.tryCatch, Bind.bind, GW.bind', GW.call, Pure.pure, GW.pure', hres]

theorem collectSprints_run (w : World) (state : String) :
    ∀ (bIds : List String) (l : EffLog),
      collectSprints w state bIds l =
        (.ok (collectedSprints w state bIds),
         { calls := l.calls ++ boardSprintCalls state bIds,
           warnings := l.warnings ++ boardSprintWarnings w state bIds }) := by
  intro bIds
  induction bIds with
  | nil =>
    intro l
    simp [collectSprints, collectedSprints, boardSprintCalls, boardSprintWarnings, GW.run_pure]
  | cons b rest ih =>
    intro l
    show (GW.tryCatch _ _ >>= _) l = _
    rw [GW.run_bind_ok _ _ (sprintBatch_run w state b l), GW.run_bind_ok _ _ (ih _)]
    rcases hres : w.boardSprints b (stateParam state) with e | io <;>
      simp [GW.run_pure, collectedSprints, boardSprintCalls, boardSprintWarnings, hres,
        List.flatMap_cons, List.append_assoc]

/-- The issue block rendered inside one sprint detail: the issue table
on success, the absence message on an empty or missing issues array,
and the inline diagnostic when the fetch fails. -/
def sprintIssuesBlockText (w : World) (host : String) (s : TaggedSprint) : String :=
  match w.sprintIssues s.sprint.id with
  | .ok (some issues) =>
    if issues.length > 0 then sprintIssuesTable host issues
    else "No issues found in this sprint.\n"
  | .ok none => "No issues found in this sprint.\n"
  | .error _ => "Could not fetch issues for this sprint.\n"

theorem sprintIssuesBlock_run (w : World) (host : String) (s : TaggedSprint) (l : EffLog) :
    GW.tryCatch
      (do
        let values ← GW.call (.getSprintIssues s.sprint.id "summary,status,assignee,issuetype")
          (w.sprintIssues s.sprint.id)
        match values with
        | some issues =>
          if issues.length > 0 then
            pure (sprintIssuesTable host issues)
          else
            pure "No issues found in this sprint.\n"
        | none => pure "No issues found in this sprint.\n")
      (fun _ => pure "Could not fetch issues for this sprint.\n") l =
    (.ok (sprintIssuesBlockText w host s),
     { l with calls := l.calls ++ [.getSprintIssues s.sprint.id "summary,status,assignee,issuetype"] }) := by
  rcases hres : w.sprintIssues s.sprint.id with e | io
  · simp [GW.tryCatch, Bind.bind, GW.bind', GW.call, Pure.pure, GW.pure',
      sprintIssuesBlockText, hres]
  · rcases io with _ | issues
    · simp [GW.tryCatch, Bind.bind, GW.bind', GW.call, Pure.pure, GW.pure',
        sprintIssuesBlockText, hres]
    · by_cases hlen : issues.length > 0
      · simp [GW.tryCatch, Bind.bind, GW.bind', GW.call, Pure.pure, GW.pure',
          sprintIssuesBlockText, hres, hlen]
      · simp [GW.tryCatch, Bind.bind, GW.bind', GW.call, Pure.pure, GW.pure',
          sprintIssuesBlockText, hres, hlen]

/-- The detail section text the rendering loop accumulates. -/
def renderedDetails (w : World) (host : String) (projectKey : Option String) :
    List TaggedSprint → String → String
  | [], acc => acc
  | s :: rest, acc =>
    renderedDetails w host projectKey rest
      (acc ++ sprintDetailHead w host projectKey s ++ sprintIssuesBlockText w host s ++ "\n---\n\n")

/-- The gateway calls issued by the detail rendering loop, one per
sprint. -/
def sprintIssueCalls (sprints : List TaggedSprint) : List UpstreamCall :=
  sprints.map (fun s => .getSprintIssues s.sprint.id "summary,status,assignee,issuetype")

theorem renderSprintDetails_run (w : World) (host : String) (projectKey : Option String) :
    ∀ (sprints : List TaggedSprint) (acc : String) (l : EffLog),
      renderSprintDetails w host projectKey sprints acc l =
        (.ok (renderedDetails w host projectKey sprints acc),
         { l with calls := l.calls ++ sprintIssueCalls sprints }) := by
  intro sprints
  induction sprints with
  | nil => intro acc l; simp [renderSprintDetails, renderedDetails, sprintIssueCalls, GW.run_pure]
  | cons s rest ih =>
    intro acc l
    show (GW.tryCatch _ _ >>= _) l = _
    rw [GW.run_bind_ok _ _ (sprintIssuesBlock_run w host s l), ih]
    simp [renderedDetails, sprintIssueCalls, List.append_assoc]

theorem resolveBoards_boardId (w : World) {boardId : Option String}
    (projectKey : Option String) (l : EffLog) (hb : jsTruthy boardId = true) :
    resolveBoards w boardId projectKey l = (.ok (.inr [boardId.getD ""]), l) := by
  unfold resolveBoards
  rw [if_pos hb]
  rfl

theorem resolveBoards_projectKey (w : World) {boardId projectKey : Option String} (l : EffLog)
    (hb : jsTruthy boardId = false) (hp : jsTruthy projectKey = true) :
    resolveBoards w boardId projectKey l =
      ((match w.boards projectKey with
        | .ok (some boards) =>
          if boards.length > 0 then .ok (.inr (boards.map (fun b => b.id)))
          else .ok (.inl (mkResult ("# No Boards Found\n\nNo boards were found for project key: " ++
            projectKey.getD "") false))
        | .ok none =>
          .ok (.inl (mkResult ("# No Boards Found\n\nNo boards were found for project key: " ++
            projectKey.getD "") false))
        | .error e => .error e),
       { l with calls := l.calls ++ [.getBoards projectKey] }) := by
  unfold resolveBoards
  rw [if_neg (by simp [hb]), if_pos hp]
  show (GW.call (.getBoards projectKey) (w.boards projectKey) >>= _) l = _
  rcases hres : w.boards projectKey with e | io
  · rw [GW.run_bind_error _ _ (GW.run_call_error _ rfl l)]
  · rcases io with _ | boards
    · rw [GW.run_bind_ok _ _ (GW.run_call_ok _ rfl l)]
      rfl
    · rw [GW.run_bind_ok _ _ (GW.run_call_ok _ rfl l)]
      by_cases hlen : boards.length > 0
      · simp only [if_pos hlen]
        exact GW.run_pure _ _
      · simp only [if_neg hlen]
        exact GW.run_pure _ _

theorem resolveBoards_unfiltered (w : World) {boardId projectKey : Option String} (l : EffLog)
    (hb : jsTruthy boardId = false) (hp : jsTruthy projectKey = false) :
    resolveBoards w boardId projectKey l =
      ((match w.boards none with
        | .ok (some boards) =>
          if boards.length > 0 then .ok (.inr ((boards.take 5).map (fun b => b.id)))
          else .ok (.inl (mkResult "# No Boards Found\n\nNo boards were found in your Jira instance." false))
        | .ok none =>
          .ok (.inl (mkResult "# No Boards Found\n\nNo boards were found in your Jira instance." false))
        | .error e => .error e),
       { l with calls := l.calls ++ [.getBoards none] }) := by
  unfold resolveBoards
  rw [if_neg (by simp [hb]), if_neg (by simp [hp])]
  show (GW.call (.getBoards none) (w.boards none) >>= _) l = _
  rcases hres : w.boards none with e | io
  · rw [GW.run_bind_error _ _ (GW.run_call_error _ rfl l)]
  · rcases io with _ | boards
    · rw [GW.run_bind_ok _ _ (GW.run_call_ok _ rfl l)]
      rfl
    · rw [GW.run_bind_ok _ _ (GW.run_call_ok _ rfl l)]
      by_cases hlen : boards.length > 0
      · simp only [if_pos hlen]
        exact GW.run_pure _ _
      · simp only [if_neg hlen]
        exact GW.run_pure _ _

theorem listSprintsBody_inl (w : World) (host : String) (boardId projectKey : Option String)
    (state : String) (l : EffLog) {r : ToolResult} {l' : EffLog}
    (hres : resolveBoards w boardId projectKey l = (.ok (.inl r), l')) :
    listSprintsBody w host boardId projectKey state l = (.ok r, l') := by
  unfold listSprintsBody
  rw [GW.run_bind_ok _ _ hres]
  rfl

theorem listSprintsBody_inr (w : World) (host : String) (boardId projectKey : Option String)
    (state : String) (l : EffLog) {bIds : List String} {l' : EffLog}
    (hres : resolveBoards w boardId projectKey l = (.ok (.inr bIds), l'))
    (hne : collectedSprints w state bIds ≠ []) :
    listSprintsBody w host boardId projectKey state l =
      (.ok (mkResult (renderedDetails w host projectKey
          (sortSprints w (collectedSprints w state bIds))
          (sprintsOverviewText w state (sortSprints w (collectedSprints w state bIds)))) false),
       { calls := l'.calls ++ boardSprintCalls state bIds
           ++ sprintIssueCalls (sortSprints w (collectedSprints w state bIds)),
         warnings := l'.warnings ++ boardSprintWarnings w state bIds }) := by
  unfold listSprintsBody
  rw [GW.run_bind_ok _ _ hres]
  show (collectSprints w state bIds >>= _) l' = _
  rw [GW.run_bind_ok _ _ (collectSprints_run w state bIds l')]
  rw [if_neg (by simp [List.length_eq_zero, hne])]
  rw [GW.run_bind_ok _ _ (renderSprintDetails_run w host projectKey _ _ _)]
  simp [GW.run_pure, List.append_assoc]

theorem listSprints_run (env : Env) (w : World) (args va : RawArgs) (l : EffLog)
    (hva : validateSprintSchema env args = .ok va)
    (h1 : jsTruthy (jsOr va.jiraHost env.jiraHost) = true)
    (h2 : jsTruthy (jsOr va.loginName env.loginName) = true)
    (h3 : jsTruthy (jsOr va.loginToken env.loginToken) = true) :
    listSprints env w args l =
      GW.tryCatch (listSprintsBody w (normalizeJiraHost ((jsOr va.jiraHost env.jiraHost).getD ""))
        va.boardId va.projectKey (jsStrOr va.state "active"))
        (fun e => pure (sprintErrorResult e)) l := by
  unfold listSprints
  rw [GW.run_bind_ok _ _ (GW.run_ofExcept_ok hva l)]
  simp only [h1, h2, h3, Bool.not_true, Bool.or_self, Bool.or_false, Bool.false_or,
    Bool.false_eq_true, if_false]
  rw [GW.run_bind_ok _ _ (GW.run_ofExcept_ok (validateCredentials_ok h1 h2 h3) l)]

/-- C7: board resolution precedence of the sprint listing.  A truthy
boardId yields exactly that single board with no board query, whatever
projectKey holds; otherwise a truthy projectKey queries boards filtered
by project and uses all of them, and an empty outcome returns the
terminal no-boards envelope with isError false before any sprint fetch
(the final log holds no sprint call); otherwise the unfiltered query is
used, truncated to the first 5 boards, with the same terminal envelope
when empty. -/
theorem C7_board_resolution_precedence (env : Env) (w : World) (args va : RawArgs)
    (l : EffLog) (bs : List Board)
    (hva : validateSprintSchema env args = .ok va)
    (h1 : jsTruthy (jsOr va.jiraHost env.jiraHost) = true)
    (h2 : jsTruthy (jsOr va.loginName env.loginName) = true)
    (h3 : jsTruthy (jsOr va.loginToken env.loginToken) = true) :
    (jsTruthy va.boardId = true →
      resolveBoards w va.boardId va.projectKey l = (.ok (.inr [va.boardId.getD ""]), l)) ∧
    (jsTruthy va.boardId = false → jsTruthy va.projectKey = true →
      w.boards va.projectKey = .ok (some bs) → 0 < bs.length →
      resolveBoards w va.boardId va.projectKey l =
        (.ok (.inr (bs.map (fun b => b.id))),
         { l with calls := l.calls ++ [.getBoards va.projectKey] })) ∧
    (jsTruthy va.boardId = false → jsTruthy va.projectKey = true →
      (w.boards va.projectKey = .ok (some []) ∨ w.boards va.projectKey = .ok none) →
      listSprints env w args l =
        (.ok (mkResult ("# No Boards Found\n\nNo boards were found for project key: " ++
          va.projectKey.getD "") false),
         { l with calls := l.calls ++ [.getBoards va.projectKey] })) ∧
    (jsTruthy va.boardId = false → jsTruthy va.projectKey = false →
      w.boards none = .ok (some bs) → 0 < bs.length →
      resolveBoards w va.boardId va.projectKey l =
        (.ok (.inr ((bs.take 5).map (fun b => b.id))),
         { l with calls := l.calls ++ [.getBoards none] })) ∧
    (jsTruthy va.boardId = false → jsTruthy va.projectKey = false →
      (w.boards none = .ok (some []) ∨ w.boards none = .ok none) →
      listSprints env w args l =
        (.ok (mkResult "# No Boards Found\n\nNo boards were found in your Jira instance." false),
         { l with calls := l.calls ++ [.getBoards none] })) := by
  refine ⟨fun hb => resolveBoards_boardId w va.projectKey l hb, ?_, ?_, ?_, ?_⟩
  · intro hb hp hres hlen
    have h := resolveBoards_projectKey w l hb hp
    rw [hres] at h
    simp only at h
    rw [if_pos hlen] at h
    exact h
  · intro hb hp hdisj
    have h := resolveBoards_projectKey w l hb hp
    have h2res : resolveBoards w va.boardId va.projectKey l =
        (.ok (.inl (mkResult ("# No Boards Found\n\nNo boards were found for project key: " ++
          va.projectKey.getD "") false)),
         { l with calls := l.calls ++ [.getBoards va.projectKey] }) := by
      rcases hdisj with hc | hc
      · rw [hc] at h
        simpa using h
      · rw [hc] at h
        simpa using h
    rw [listSprints_run env w args va l hva h1 h2 h3]
    exact GW.run_tryCatch_ok _ _ (listSprintsBody_inl w _ va.boardId va.projectKey _ l h2res)
  · intro hb hp hres hlen
    have h := resolveBoards_unfiltered w l hb hp
    rw [hres] at h
    simp only at h
    rw [if_pos hlen] at h
    exact h
  · intro hb hp hdisj
    have h := resolveBoards_unfiltered w l hb hp
    have h2res : resolveBoards w va.boardId va.projectKey l =
        (.ok (.inl (mkResult "# No Boards Found\n\nNo boards were found in your Jira instance." false)),
         { l with calls := l.calls ++ [.getBoards none] }) := by
      rcases hdisj with hc | hc
      · rw [hc] at h
        simpa using h
      · rw [hc] at h
        simpa using h
    rw [listSprints_run env w args va l hva h1 h2 h3]
    exact GW.run_tryCatch_ok _ _ (listSprintsBody_inl w _ va.boardId va.projectKey _ l h2res)

/-- Sprint arguments carrying both a board id and a project key. -/
def sprintArgsBoth : RawArgs :=
  { emptyArgs with
    jiraHost := some "jira.example.com"
    loginName := some "u"
    loginToken := some "t"
    boardId := some "7"
    projectKey := some "PROJ" }

/-- The validated form of sprintArgsBoth (the state default applied). -/
def sprintVaBoth : RawArgs :=
  { sprintArgsBoth with state := some "active" }

/-- Sprint arguments carrying only a project key. -/
def sprintArgsProj : RawArgs :=
  { sprintArgsBoth with boardId := none }

/-- The validated form of sprintArgsProj. -/
def sprintVaProj : RawArgs :=
  { sprintArgsProj with state := some "active" }

/-- Sprint arguments carrying neither board id nor project key. -/
def sprintArgsNone : RawArgs :=
  { sprintArgsBoth with boardId := none, projectKey := none }

/-- The validated form of sprintArgsNone. -/
def sprintVaNone : RawArgs :=
  { sprintArgsNone with state := some "active" }

/-- Seven boards, to exercise the take-5 truncation. -/
def c7Boards : List Board :=
  [{ id := "1" }, { id := "2" }, { id := "3" }, { id := "4" },
   { id := "5" }, { id := "6" }, { id := "7" }]

/-- A world whose board listing returns seven boards. -/
def c7BoardsWorld : World :=
  { offlineWorld with boards := fun _ => .ok (some c7Boards) }

/-- A world whose board listing returns an empty values array. -/
def c7EmptyWorld : World :=
  { offlineWorld with boards := fun _ => .ok (some []) }

/-- Witness for C7: all five resolution outcomes at concrete inputs. -/
theorem C7_board_resolution_precedence_witness :
    resolveBoards c7BoardsWorld (some "7") (some "PROJ") emptyLog
      = (.ok (.inr ["7"]), emptyLog) ∧
    resolveBoards c7BoardsWorld none (some "PROJ") emptyLog
      = (.ok (.inr (c7Boards.map (fun b => b.id))),
         { emptyLog with calls := emptyLog.calls ++ [.getBoards (some "PROJ")] }) ∧
    listSprints sampleEnv c7EmptyWorld sprintArgsProj emptyLog
      = (.ok (mkResult "# No Boards Found\n\nNo boards were found for project key: PROJ" false),
         { emptyLog with calls := emptyLog.calls ++ [.getBoards (some "PROJ")] }) ∧
    resolveBoards c7BoardsWorld none none emptyLog
      = (.ok (.inr ((c7Boards.take 5).map (fun b => b.id))),
         { emptyLog with calls := emptyLog.calls ++ [.getBoards none] }) ∧
    listSprints sampleEnv c7EmptyWorld sprintArgsNone emptyLog
      = (.ok (mkResult "# No Boards Found\n\nNo boards were found in your Jira instance." false),
         { emptyLog with calls := emptyLog.calls ++ [.getBoards none] }) :=
  ⟨(C7_board_resolution_precedence sampleEnv c7BoardsWorld sprintArgsBoth sprintVaBoth
      emptyLog c7Boards (by decide) (by decide) (by decide) (by decide)).1 (by decide),
   (C7_board_resolution_precedence sampleEnv c7BoardsWorld sprintArgsProj sprintVaProj
      emptyLog c7Boards (by decide) (by decide) (by decide) (by decide)).2.1
      (by decide) (by decide) rfl (by decide),
   (C7_board_resolution_precedence sampleEnv c7EmptyWorld sprintArgsProj sprintVaProj
      emptyLog [] (by decide) (by decide) (by decide) (by decide)).2.2.1
      (by decide) (by decide) (Or.inl rfl),
   (C7_board_resolution_precedence sampleEnv c7BoardsWorld sprintArgsNone sprintVaNone
      emptyLog c7Boards (by decide) (by decide) (by decide) (by decide)).2.2.2.1
      (by decide) (by decide) rfl (by decide),
   (C7_board_resolution_precedence sampleEnv c7EmptyWorld sprintArgsNone sprintVaNone
      emptyLog [] (by decide) (by decide) (by decide) (by decide)).2.2.2.2
      (by decide) (by decide) (Or.inl rfl)⟩

/-- C3: per-board failure isolation of the sprint listing.  The
per-board loop never throws: it returns exactly the sprints of the
boards whose fetch succeeded, one skip warning per failing board; a
board whose sprints were obtained keeps every one of them in the
collected set, the sorted set holds the same sprints, and when the
collected set is nonempty the whole call returns the rendered report
with isError false. -/
theorem C3_per_board_failure_isolated (env : Env) (w : World) (args va : RawArgs)
    (l : EffLog) (state : String) (bIds : List String)
    (hva : validateSprintSchema env args = .ok va)
    (h1 : jsTruthy (jsOr va.jiraHost env.jiraHost) = true)
    (h2 : jsTruthy (jsOr va.loginName env.loginName) = true)
    (h3 : jsTruthy (jsOr va.loginToken env.loginToken) = true)
    (hstate : jsStrOr va.state "active" = state) :
    (collectSprints w state bIds l =
      (.ok (collectedSprints w state bIds),
       { calls := l.calls ++ boardSprintCalls state bIds,
         warnings := l.warnings ++ boardSprintWarnings w state bIds })) ∧
    (∀ b ∈ bIds, ∀ e, w.boardSprints b (stateParam state) = .error e →
      ("Could not fetch sprints for board " ++ b) ∈
        l.warnings ++ boardSprintWarnings w state bIds) ∧
    (∀ b ∈ bIds, ∀ vs, w.boardSprints b (stateParam state) = .ok (some vs) →
      ∀ s ∈ vs, ({ sprint := s, boardId := b } : TaggedSprint) ∈ collectedSprints w state bIds) ∧
    (∀ s : TaggedSprint,
      s ∈ sortSprints w (collectedSprints w state bIds) ↔ s ∈ collectedSprints w state bIds) ∧
    (∀ l', resolveBoards w va.boardId va.projectKey l = (.ok (.inr bIds), l') →
      collectedSprints w state bIds ≠ [] →
      listSprints env w args l =
        (.ok (mkResult (renderedDetails w
            (normalizeJiraHost ((jsOr va.jiraHost env.jiraHost).getD "")) va.projectKey
            (sortSprints w (collectedSprints w state bIds))
            (sprintsOverviewText w state (sortSprints w (collectedSprints w state bIds)))) false),
         { calls := l'.calls ++ boardSprintCalls state bIds
             ++ sprintIssueCalls (sortSprints w (collectedSprints w state bIds)),
           warnings := l'.warnings ++ boardSprintWarnings w state bIds })) := by
  refine ⟨collectSprints_run w state bIds l, ?_, ?_, ?_, ?_⟩
  · intro b hb e hres
    refine List.mem_append_right _ ?_
    refine List.mem_filterMap.mpr ⟨b, hb, ?_⟩
    rw [hres]
  · intro b hb vs hres s hs
    refine List.mem_flatMap.mpr ⟨b, hb, ?_⟩
    rw [hres]
    exact List.mem_map.mpr ⟨s, hs, rfl⟩
  · intro s
    exact (List.mergeSort_perm (collectedSprints w state bIds) _).mem_iff
  · intro l' hres hne
    rw [listSprints_run env w args va l hva h1 h2 h3, hstate]
    exact GW.run_tryCatch_ok _ _ (listSprintsBody_inr w _ va.boardId va.projectKey state l hres hne)

/-- A sprint of board A in the C3 scenario. -/
def sprintA : SprintRec :=
  { id := "10", name := "Sprint A", state := "active",
    startDate := some "2024-03-01", endDate := none, goal := none }

/-- A sprint of board C in the C3 scenario. -/
def sprintC : SprintRec :=
  { id := "11", name := "Sprint C", state := "active",
    startDate := none, endDate := none, goal := none }

/-- A world with boards A, F, C where the sprint fetch of board F
fails and the other two succeed. -/
def c3World : World :=
  { offlineWorld with
    boards := fun _ => .ok (some [{ id := "A" }, { id := "F" }, { id := "C" }])
    boardSprints := fun b _ =>
      if b = "F" then .error "boom"
      else if b = "A" then .ok (some [sprintA])
      else .ok (some [sprintC])
    sprintIssues := fun _ => .ok none }

/-- The effect log after the board resolution step of the C3 scenario. -/
def c3Log1 : EffLog :=
  { emptyLog with calls := emptyLog.calls ++ [.getBoards (some "PROJ")] }

/-- Witness for C3 at the concrete three-board scenario. -/
theorem C3_per_board_failure_isolated_witness :
    (collectSprints c3World "active" ["A", "F", "C"] emptyLog =
      (.ok (collectedSprints c3World "active" ["A", "F", "C"]),
       { calls := emptyLog.calls ++ boardSprintCalls "active" ["A", "F", "C"],
         warnings := emptyLog.warnings ++ boardSprintWarnings c3World "active" ["A", "F", "C"] })) ∧
    ("Could not fetch sprints for board F" ∈
      emptyLog.warnings ++ boardSprintWarnings c3World "active" ["A", "F", "C"]) ∧
    (({ sprint := sprintA, boardId := "A" } : TaggedSprint) ∈
      collectedSprints c3World "active" ["A", "F", "C"]) ∧
    (listSprints sampleEnv c3World sprintArgsProj emptyLog =
      (.ok (mkResult (renderedDetails c3World "https://jira.example.com" (some "PROJ")
          (sortSprints c3World (collectedSprints c3World "active" ["A", "F", "C"]))
          (sprintsOverviewText c3World "active"
            (sortSprints c3World (collectedSprints c3World "active" ["A", "F", "C"])))) false),
       { calls := c3Log1.calls
           ++ boardSprintCalls "active" ["A", "F", "C"]
           ++ sprintIssueCalls (sortSprints c3World (collectedSprints c3World "active" ["A", "F", "C"])),
         warnings := c3Log1.warnings
           ++ boardSprintWarnings c3World "active" ["A", "F", "C"] })) :=
  ⟨(C3_per_board_failure_isolated sampleEnv c3World sprintArgsProj sprintVaProj emptyLog
      "active" ["A", "F", "C"] (by decide) (by decide) (by decide) (by decide) (by decide)).1,
   (C3_per_board_failure_isolated sampleEnv c3World sprintArgsProj sprintVaProj emptyLog
      "active" ["A", "F", "C"] (by decide) (by decide) (by decide) (by decide) (by decide)).2.1
      "F" (by decide) "boom" (by decide),
   (C3_per_board_failure_isolated sampleEnv c3World sprintArgsProj sprintVaProj emptyLog
      "active" ["A", "F", "C"] (by decide) (by decide) (by decide) (by decide) (by decide)).2.2.1
      "A" (by decide) [sprintA] (by decide) sprintA (by decide),
   (C3_per_board_failure_isolated sampleEnv c3World sprintArgsProj sprintVaProj emptyLog
      "active" ["A", "F", "C"] (by decide) (by decide) (by decide) (by decide) (by decide)).2.2.2.2
      c3Log1 (by decide) (by decide)⟩
